import Mathlib

/-!
Shallow embedding of the ingress-gateway-api controller (Go) in Lean 4.

The embedding follows the Go sources of the repository:
  * `internal/annotations/annotations.go` — annotation keys and typed getters;
  * `internal/converter/converter.go` (`ConvertIngressFull` and helpers),
    `internal/converter/filters.go` (`applyFilters` and helpers),
    `internal/converter/policies.go` (policy generation),
    `internal/converter/resolver.go` (port resolvers);
  * `internal/controller/ingress_controller.go` — the reconciler.

Go maps are represented as association lists (Go's iteration order over a map
is unspecified; the list keeps first-appearance order where the code iterates).
Go `int`/`int32`/`int64`/`time.Duration` values are represented as `Int` with
explicit wrap-around (`wrap64`) at the one place the Go code can overflow.
Functions from the Go standard library that the sources call (`strconv.Atoi`,
`strconv.ParseBool`, `time.ParseDuration`, `strings` helpers) are modelled
here, following the Go library's documented behaviour.
-/

/-! ### Models of Go standard-library primitives -/

/-- A Go digit test, `'0' <= c && c <= '9'`. -/
def isGoDigit (c : Char) : Bool := '0' ≤ c ∧ c ≤ '9'

/-- Decimal value of a digit string. -/
def digitsToNat (cs : List Char) : Nat :=
  cs.foldl (fun a c => a * 10 + (c.toNat - 48)) 0

/-- Models Go `strconv.Atoi`: an optional sign, then one or more digits, and
the value must fit a 64-bit `int`; anything else is an error (`none`). -/
def goAtoi (s : String) : Option Int :=
  match s.data with
  | [] => none
  | c :: rest =>
    let (neg, ds) :=
      if c = '-' then (true, rest)
      else if c = '+' then (false, rest)
      else (false, c :: rest)
    if ds.isEmpty ∨ ¬ ds.all isGoDigit then none
    else
      let n : Nat := digitsToNat ds
      let v : Int := if neg then -(n : Int) else (n : Int)
      if v < -(2 ^ 63) ∨ v > 2 ^ 63 - 1 then none else some v

/-- Two's-complement wrap of an `Int` into the signed 64-bit range, as Go
arithmetic on `int64` does on overflow. -/
def wrap64 (x : Int) : Int := (x + 2 ^ 63) % 2 ^ 64 - 2 ^ 63

/-- Go integer division truncates toward zero; every divisor used in this file
is a positive constant. -/
def goDiv (a b : Int) : Int :=
  if a ≥ 0 then ((a.natAbs / b.natAbs : Nat) : Int)
  else -((a.natAbs / b.natAbs : Nat) : Int)

def nsPerMs : Int := 1000000
def nsPerSecond : Int := 1000000000
def nsPerMinute : Int := 60000000000
def nsPerHour : Int := 3600000000000

/-- `formatDuration` from `internal/annotations/annotations.go`: renders a
`time.Duration` (an `Int` count of nanoseconds) as hours, minutes, seconds and
milliseconds, emitting only positive components; zero (or anything with no
positive component) renders as "0s". -/
def formatDuration (d : Int) : String :=
  if d = 0 then "0s"
  else
    let hours := goDiv d nsPerHour
    let s1 : String := if hours > 0 then toString hours ++ "h" else ""
    let d1 : Int := if hours > 0 then d - hours * nsPerHour else d
    let minutes := goDiv d1 nsPerMinute
    let s2 : String := if minutes > 0 then toString minutes ++ "m" else ""
    let d2 : Int := if minutes > 0 then d1 - minutes * nsPerMinute else d1
    let seconds := goDiv d2 nsPerSecond
    let s3 : String := if seconds > 0 then toString seconds ++ "s" else ""
    let d3 : Int := if seconds > 0 then d2 - seconds * nsPerSecond else d2
    let ms := goDiv d3 nsPerMs
    let s4 : String := if ms > 0 then toString ms ++ "ms" else ""
    let result := s1 ++ s2 ++ s3 ++ s4
    if result = "" then "0s" else result

/-- Models `leadingInt` of Go `time`: consumes leading digits, accumulating a
`uint64` value; errors (`none`) when the accumulation passes `1<<63`. -/
def leadingIntGo (x : Nat) : List Char → Option (Nat × List Char)
  | [] => some (x, [])
  | c :: cs =>
    if ¬ isGoDigit c then some (x, c :: cs)
    else if x > 2 ^ 63 / 10 then none
    else
      let x1 := x * 10 + (c.toNat - 48)
      if x1 > 2 ^ 63 then none
      else leadingIntGo x1 cs

/-- Models `leadingFraction` of Go `time`: consumes leading digits after the
decimal point, returning the fraction value and its scale; once the value
would overflow, further digits are consumed but ignored. -/
def leadingFractionGo (x scale : Nat) (overflow : Bool) :
    List Char → Nat × Nat × List Char
  | [] => (x, scale, [])
  | c :: cs =>
    if ¬ isGoDigit c then (x, scale, c :: cs)
    else if overflow then leadingFractionGo x scale true cs
    else if x > (2 ^ 63 - 1) / 10 then leadingFractionGo x scale true cs
    else
      let y := x * 10 + (c.toNat - 48)
      if y > 2 ^ 63 then leadingFractionGo x scale true cs
      else leadingFractionGo y (scale * 10) false cs

/-- The unit table of Go `time.ParseDuration`, in nanoseconds. -/
def unitNs : List Char → Option Nat
  | ['n', 's'] => some 1
  | ['u', 's'] => some 1000
  | ['µ', 's'] => some 1000
  | ['μ', 's'] => some 1000
  | ['m', 's'] => some 1000000
  | ['s'] => some 1000000000
  | ['m'] => some 60000000000
  | ['h'] => some 3600000000000
  | _ => none

/-- One pass of the `ParseDuration` loop per fuel unit; each pass consumes at
least one character, so `length + 1` fuel always suffices.  The fractional
contribution is computed with exact integer arithmetic where Go uses
`float64`; the two agree on every humanly short input. -/
def durLoop : Nat → List Char → Nat → Option Nat
  | 0, _, _ => none
  | _ + 1, [], d => some d
  | fuel + 1, c :: cs, d =>
    if ¬ (c = '.' ∨ isGoDigit c) then none
    else
      match leadingIntGo 0 (c :: cs) with
      | none => none
      | some (v, rest1) =>
        let pre : Bool := rest1.length != (c :: cs).length
        let (f, scale, rest2, post) :=
          match rest1 with
          | '.' :: tail =>
            let (f, sc, r) := leadingFractionGo 0 1 false tail
            (f, sc, r, (r.length != tail.length : Bool))
          | other => (0, 1, other, false)
        if ¬ pre ∧ ¬ post then none
        else
          let uChars := rest2.takeWhile (fun ch => ¬ (ch = '.' ∨ isGoDigit ch))
          if uChars.length = 0 then none
          else
            match unitNs uChars with
            | none => none
            | some unit =>
              if v > 2 ^ 63 / unit then none
              else
                let v1 := v * unit
                let v2 := if f > 0 then v1 + f * unit / scale else v1
                if f > 0 ∧ v2 > 2 ^ 63 then none
                else
                  let d1 := d + v2
                  if d1 > 2 ^ 63 then none
                  else durLoop fuel (rest2.drop uChars.length) d1

/-- Models Go `time.ParseDuration`: an optional sign, the special case "0",
then a sequence of number-unit groups. Returns the nanosecond count. -/
def goParseDuration (s : String) : Option Int :=
  let cs := s.data
  let (neg, cs1) :=
    match cs with
    | '-' :: t => (true, t)
    | '+' :: t => (false, t)
    | l => (false, l)
  if cs1 = ['0'] then some 0
  else if cs1.isEmpty then none
  else
    match durLoop (cs1.length + 1) cs1 0 with
    | none => none
    | some d =>
      if neg then some (-(d : Int))
      else if d > 2 ^ 63 - 1 then none
      else some (d : Int)

/-- Models Go `strconv.ParseBool`. -/
def goParseBool (s : String) : Option Bool :=
  if s = "1" ∨ s = "t" ∨ s = "T" ∨ s = "true" ∨ s = "TRUE" ∨ s = "True" then
    some true
  else if s = "0" ∨ s = "f" ∨ s = "F" ∨ s = "false" ∨ s = "FALSE" ∨ s = "False" then
    some false
  else none

/-- The whitespace set of Go `strings.TrimSpace` restricted to ASCII (the
annotation values this controller sees are ASCII). -/
def isGoSpace (c : Char) : Bool :=
  c = ' ' ∨ c = '\t' ∨ c = '\n' ∨ c = '\x0b' ∨ c = '\x0c' ∨ c = '\r'

/-- Models Go `strings.TrimSpace`. -/
def goTrimSpace (s : String) : String :=
  String.mk (((s.data.dropWhile isGoSpace).reverse.dropWhile isGoSpace).reverse)

/-- Whether `pat` is a prefix of the first list. -/
def goHasPrefixL : List Char → List Char → Bool
  | _, [] => true
  | [], _ :: _ => false
  | c :: cs, p :: ps => c = p && goHasPrefixL cs ps

/-- Go `strings.HasPrefix`. -/
def goStartsWith (s pre : String) : Bool := goHasPrefixL s.data pre.data

/-- Go `strings.HasSuffix`. -/
def goEndsWith (s suf : String) : Bool :=
  goHasPrefixL s.data.reverse suf.data.reverse

/-- Go `strings.ReplaceAll` on character lists: non-overlapping, leftmost
first (the patterns used in this file are never empty).  The fuel argument
only serves structural termination: every step consumes at least one
character, so the list's length suffices. -/
def goReplaceAllL (pat rep : List Char) : Nat → List Char → List Char
  | 0, l => l
  | _ + 1, [] => []
  | fuel + 1, c :: cs =>
    if goHasPrefixL (c :: cs) pat ∧ pat ≠ [] then
      rep ++ goReplaceAllL pat rep fuel ((c :: cs).drop pat.length)
    else c :: goReplaceAllL pat rep fuel cs

/-- Go `strings.ReplaceAll`. -/
def goReplaceAll (s pat rep : String) : String :=
  String.mk (goReplaceAllL pat.data rep.data s.data.length s.data)

/-- Go `strings.Split` with a non-empty separator, on character lists; `cur`
holds the current field reversed; the fuel only serves structural
termination. -/
def goSplitOnAux (sep : List Char) : Nat → List Char → List Char → List (List Char)
  | 0, _, cur => [cur.reverse]
  | _ + 1, [], cur => [cur.reverse]
  | fuel + 1, c :: cs, cur =>
    if goHasPrefixL (c :: cs) sep ∧ sep ≠ [] then
      cur.reverse :: goSplitOnAux sep fuel ((c :: cs).drop sep.length) []
    else goSplitOnAux sep fuel cs (c :: cur)

/-- Go `strings.Split`. -/
def goSplitOn (s sep : String) : List String :=
  (goSplitOnAux sep.data s.data.length s.data []).map String.mk

/-- Go string slicing `s[n:]` (by character here; the indices used in this
file fall on character boundaries). -/
def goStrDrop (s : String) (n : Nat) : String := String.mk (s.data.drop n)

/-- `strings.Join`. -/
def goIntercalate (sep : String) : List String → String
  | [] => ""
  | [x] => x
  | x :: xs => x ++ sep ++ goIntercalate sep xs

/-- Go `<` on strings compares UTF-8 bytes; comparing code points gives the
same order because UTF-8 encoding is order-preserving. -/
def goChLt : List Char → List Char → Bool
  | [], [] => false
  | [], _ :: _ => true
  | _ :: _, [] => false
  | a :: as, b :: bs =>
    if a.val < b.val then true
    else if b.val < a.val then false
    else goChLt as bs

/-- Go `>` on strings (used by `buildTimeout` on `gatewayv1.Duration`). -/
def goStrGt (a b : String) : Bool := goChLt b.data a.data

/-! ### The annotation decoder (`internal/annotations`) -/

/-- `AnnotationSet` is a Go `map[string]string`; an association list here. -/
abbrev AnnotSet : Type := List (String × String)

/-- Go map lookup (`val, ok := a[key]`). -/
def lookupAnnot (a : AnnotSet) (key : String) : Option String :=
  match List.find? (fun p => p.1 = key) a with
  | some p => some p.2
  | none => none

def nginxAnnotationPrefix : String := "nginx.ingress.kubernetes.io/"

def proxyReadTimeoutKey : String := nginxAnnotationPrefix ++ "proxy-read-timeout"
def proxySendTimeoutKey : String := nginxAnnotationPrefix ++ "proxy-send-timeout"
def proxyBufferSizeKey : String := nginxAnnotationPrefix ++ "proxy-buffer-size"
def proxyBodySizeKey : String := nginxAnnotationPrefix ++ "proxy-body-size"
def upstreamHashByKey : String := nginxAnnotationPrefix ++ "upstream-hash-by"
def corsEnabledKey : String := nginxAnnotationPrefix ++ "enable-cors"
def corsAllowOriginKey : String := nginxAnnotationPrefix ++ "cors-allow-origin"
def corsAllowMethodsKey : String := nginxAnnotationPrefix ++ "cors-allow-methods"
def corsAllowHeadersKey : String := nginxAnnotationPrefix ++ "cors-allow-headers"
def corsExposeHeadersKey : String := nginxAnnotationPrefix ++ "cors-expose-headers"
def corsMaxAgeKey : String := nginxAnnotationPrefix ++ "cors-max-age"
def corsAllowCredentialsKey : String := nginxAnnotationPrefix ++ "cors-allow-credentials"
def authURLKey : String := nginxAnnotationPrefix ++ "auth-url"
def authSigninKey : String := nginxAnnotationPrefix ++ "auth-signin"
def authResponseHeadersKey : String := nginxAnnotationPrefix ++ "auth-response-headers"
def rewriteTargetKey : String := nginxAnnotationPrefix ++ "rewrite-target"
def appRootKey : String := nginxAnnotationPrefix ++ "app-root"
def sslRedirectKey : String := nginxAnnotationPrefix ++ "ssl-redirect"
def useRegexKey : String := nginxAnnotationPrefix ++ "use-regex"

/-- `AnnotationSet.GetString`. -/
def getString (a : AnnotSet) (key : String) : Option String := lookupAnnot a key

/-- `AnnotationSet.GetDuration`: integer values are seconds (Go multiplies
with `int64` wrap-around), otherwise the value is parsed as a Go duration
expression; the result is re-rendered by `formatDuration`. -/
def getDuration (a : AnnotSet) (key : String) : Option String :=
  match lookupAnnot a key with
  | none => none
  | some val =>
    match goAtoi val with
    | some seconds => some (formatDuration (wrap64 (seconds * nsPerSecond)))
    | none =>
      match goParseDuration val with
      | some dur => some (formatDuration dur)
      | none => none

/-- `AnnotationSet.GetBool`. -/
def getBool (a : AnnotSet) (key : String) : Option Bool :=
  match lookupAnnot a key with
  | none => none
  | some val => goParseBool val

/-- Go `strings.Split` on "," followed by the trim-and-drop-empties loop of
`AnnotationSet.GetStringSlice`. -/
def getStringSlice (a : AnnotSet) (key : String) : Option (List String) :=
  match lookupAnnot a key with
  | none => none
  | some val =>
    let result := ((goSplitOn val ",").map goTrimSpace).filter (fun s => s ≠ "")
    if result.isEmpty then none else some result

/-- `normalizeSize` from `internal/annotations/annotations.go`: converts nginx
size suffixes (`k`/`m`/`g`) to binary Kubernetes suffixes (`Ki`/`Mi`/`Gi`). -/
def normalizeSize (val0 : String) : String :=
  let val := goTrimSpace val0
  if val.data.length = 0 then val
  else
    match val.data.getLast? with
    | some 'k' => String.mk (val.data.dropLast) ++ "Ki"
    | some 'm' => String.mk (val.data.dropLast) ++ "Mi"
    | some 'g' => String.mk (val.data.dropLast) ++ "Gi"
    | some 'K' => if ¬ goEndsWith val "i" then val ++ "i" else val
    | some 'M' => if ¬ goEndsWith val "i" then val ++ "i" else val
    | some 'G' => if ¬ goEndsWith val "i" then val ++ "i" else val
    | _ => val

/-- Models the grammar accepted by `k8s.io/apimachinery`'s
`resource.ParseQuantity` as far as this controller exercises it: an optional
sign, digits with an optional fractional part, then an optional binary or
decimal SI suffix or decimal exponent. -/
def quantitySuffixOk : List Char → Bool
  | [] => true
  | ['n'] | ['u'] | ['m'] | ['k'] | ['M'] | ['G'] | ['T'] | ['P'] | ['E'] => true
  | ['K', 'i'] | ['M', 'i'] | ['G', 'i'] | ['T', 'i'] | ['P', 'i'] | ['E', 'i'] => true
  | 'e' :: ds => ¬ ds.isEmpty ∧ ds.all isGoDigit
  | 'E' :: ds => ¬ ds.isEmpty ∧ ds.all isGoDigit
  | _ => false

def quantityParses (s : String) : Bool :=
  let cs :=
    match s.data with
    | '+' :: t => t
    | '-' :: t => t
    | l => l
  let intPart := cs.takeWhile isGoDigit
  let rest1 := cs.drop intPart.length
  let (fracPart, rest2) :=
    match rest1 with
    | '.' :: t => (t.takeWhile isGoDigit, (t.dropWhile isGoDigit))
    | l => (([] : List Char), l)
  (¬ intPart.isEmpty ∨ ¬ fracPart.isEmpty) ∧ quantitySuffixOk rest2

/-- `AnnotationSet.GetQuantity`: normalize the nginx size format, then parse;
the parsed quantity is represented by its normalized string. -/
def getQuantity (a : AnnotSet) (key : String) : Option String :=
  match lookupAnnot a key with
  | none => none
  | some val =>
    let normalized := normalizeSize val
    if quantityParses normalized then some normalized else none

/-- Key presence (`has` in the Go source). -/
def hasKey (a : AnnotSet) (key : String) : Bool := (lookupAnnot a key).isSome

/-- `AnnotationSet.HasTimeout`. -/
def hasTimeout (a : AnnotSet) : Bool :=
  hasKey a proxyReadTimeoutKey ∨ hasKey a proxySendTimeoutKey

/-- `AnnotationSet.HasBufferSize`. -/
def hasBufferSize (a : AnnotSet) : Bool :=
  hasKey a proxyBufferSizeKey ∨ hasKey a proxyBodySizeKey

/-- `AnnotationSet.HasLoadBalancer`. -/
def hasLoadBalancer (a : AnnotSet) : Bool := hasKey a upstreamHashByKey

/-- `AnnotationSet.HasCORS`: the explicit enable key parsed as a true bool, or
any CORS configuration key present. -/
def hasCORS (a : AnnotSet) : Bool :=
  (match getBool a corsEnabledKey with
   | some true => true
   | _ => false) ||
  [corsAllowOriginKey, corsAllowMethodsKey, corsAllowHeadersKey,
   corsExposeHeadersKey, corsMaxAgeKey, corsAllowCredentialsKey].any
    (fun k => hasKey a k)

/-- `AnnotationSet.HasExtAuth`. -/
def hasExtAuth (a : AnnotSet) : Bool := hasKey a authURLKey

/-- `AnnotationSet.HasRewrite`. -/
def hasRewrite (a : AnnotSet) : Bool := hasKey a rewriteTargetKey

/-- `AnnotationSet.HasAppRoot`. -/
def hasAppRoot (a : AnnotSet) : Bool := hasKey a appRootKey

/-- `AnnotationSet.HasSSLRedirect`: present and parsed to `true`. -/
def hasSSLRedirect (a : AnnotSet) : Bool :=
  match getBool a sslRedirectKey with
  | some true => true
  | _ => false

/-- `AnnotationSet.HasBackendTrafficPolicyAnnotations`. -/
def hasBackendTrafficPolicyAnnotations (a : AnnotSet) : Bool :=
  hasTimeout a ∨ hasLoadBalancer a ∨ hasKey a proxyBodySizeKey

/-- `AnnotationSet.HasClientTrafficPolicyAnnotations`. -/
def hasClientTrafficPolicyAnnotations (a : AnnotSet) : Bool :=
  hasKey a proxyBufferSizeKey

/-- `AnnotationSet.HasSecurityPolicyAnnotations`. -/
def hasSecurityPolicyAnnotations (a : AnnotSet) : Bool :=
  hasCORS a ∨ hasExtAuth a

/-- `AnnotationSet.HasHTTPRouteFilters`. -/
def hasHTTPRouteFilters (a : AnnotSet) : Bool :=
  hasRewrite a ∨ hasAppRoot a ∨ hasSSLRedirect a

/-- The canonical Gateway API duration pattern
`([0-9]{1,5}(h|m|s|ms)){1,4}` anchored at both ends, matched with
backtracking over the unit alternatives and the group count. -/
def canonAux : Nat → List Char → Bool
  | 0, _ => false
  | g + 1, cs =>
    let ds := cs.takeWhile isGoDigit
    let rest := cs.drop ds.length
    if ds.length < 1 ∨ ds.length > 5 then false
    else
      match rest with
      | 'm' :: 's' :: tail =>
        (('s' :: tail).isEmpty ∨ (canonAux g ('s' :: tail))) ∨
        (tail.isEmpty ∨ (canonAux g tail))
      | 'h' :: tail => tail.isEmpty ∨ canonAux g tail
      | 'm' :: tail => tail.isEmpty ∨ canonAux g tail
      | 's' :: tail => tail.isEmpty ∨ canonAux g tail
      | _ => false

/-- Whether a string matches `^([0-9]{1,5}(h|m|s|ms)){1,4}$`. -/
def matchesCanonicalDuration (s : String) : Bool := canonAux 4 s.data

/-! ### The data model: Ingress input and Gateway API output -/

/-- `networkingv1.PathType`. -/
inductive PathTypeK
  | exact
  | prefixPath
  | implSpecific
  deriving Repr, DecidableEq

/-- `networkingv1.ServiceBackendPort` (`Name` or `Number`). -/
structure ServiceBackendPort where
  name : String := ""
  number : Int := 0
  deriving Repr, DecidableEq

/-- `networkingv1.IngressServiceBackend`. -/
structure IngressServiceBackend where
  name : String
  port : ServiceBackendPort
  deriving Repr, DecidableEq

/-- `networkingv1.TypedLocalObjectReference` (a resource backend). -/
structure IngressResourceBackend where
  apiGroup : Option String := none
  kind : String
  name : String
  deriving Repr, DecidableEq

/-- `networkingv1.IngressBackend` with its two optional pointers. -/
structure IngressBackend where
  service : Option IngressServiceBackend := none
  resource : Option IngressResourceBackend := none
  deriving Repr, DecidableEq

/-- `networkingv1.HTTPIngressPath`. -/
structure HTTPIngressPath where
  path : String := ""
  pathType : Option PathTypeK := none
  backend : IngressBackend := {}
  deriving Repr, DecidableEq

/-- `networkingv1.IngressRule`: a host and an optional HTTP block. -/
structure IngressRule where
  host : String := ""
  http : Option (List HTTPIngressPath) := none
  deriving Repr, DecidableEq

/-- The fields of `networkingv1.Ingress` this controller reads.  A deletion
timestamp is represented by the flag that `DeletionTimestamp.IsZero()`
inspects. -/
structure Ingress where
  name : String
  ns : String
  uid : String := ""
  labels : List (String × String) := []
  annotations : AnnotSet := []
  ingressClassName : Option String := none
  rules : List IngressRule := []
  defaultBackend : Option IngressBackend := none
  finalizers : List String := []
  deletionTimestampSet : Bool := false
  deriving Repr, DecidableEq

/-- `gatewayv1.PathMatchType`. -/
inductive PathMatchType
  | exact
  | pathPfx
  | regularExpression
  deriving Repr, DecidableEq

/-- `gatewayv1.HTTPPathMatch`. -/
structure HTTPPathMatch where
  type : Option PathMatchType := none
  value : Option String := none
  deriving Repr, DecidableEq

/-- `gatewayv1.HTTPRouteMatch` (only the path field is produced). -/
structure HTTPRouteMatch where
  path : Option HTTPPathMatch := none
  deriving Repr, DecidableEq

/-- `gatewayv1.HTTPPathModifierType`. -/
inductive PathModifierType
  | fullPath
  | prefixMatch
  deriving Repr, DecidableEq

/-- `gatewayv1.HTTPPathModifier`. -/
structure HTTPPathModifier where
  type : PathModifierType
  replaceFullPath : Option String := none
  replacePrefixMatch : Option String := none
  deriving Repr, DecidableEq

/-- `gatewayv1.HTTPRequestRedirectFilter`. -/
structure HTTPRequestRedirectFilter where
  scheme : Option String := none
  statusCode : Option Int := none
  path : Option HTTPPathModifier := none
  deriving Repr, DecidableEq

/-- `gatewayv1.HTTPURLRewriteFilter`. -/
structure HTTPURLRewriteFilter where
  path : Option HTTPPathModifier := none
  deriving Repr, DecidableEq

/-- `gatewayv1.HTTPRouteFilter`: the Go struct carries a `Type` tag and one
pointer per variant; a sum type renders the same information. -/
inductive HTTPRouteFilter
  | requestRedirect (f : HTTPRequestRedirectFilter)
  | urlRewrite (f : HTTPURLRewriteFilter)
  deriving Repr, DecidableEq

/-- Whether a filter is a URLRewrite filter. -/
def isURLRewriteFilter : HTTPRouteFilter → Bool
  | .urlRewrite _ => true
  | .requestRedirect _ => false

/-- Whether a filter is a RequestRedirect filter. -/
def isRequestRedirectFilter : HTTPRouteFilter → Bool
  | .requestRedirect _ => true
  | .urlRewrite _ => false

/-- `gatewayv1.BackendObjectReference` inside an `HTTPBackendRef`. -/
structure BackendObjectReference where
  group : Option String := none
  kind : Option String := none
  name : String := ""
  ns : Option String := none
  port : Option Int := none
  deriving Repr, DecidableEq

/-- `gatewayv1.HTTPRouteRule` (matches, filters, backendRefs). -/
structure HTTPRouteRule where
  matchList : List HTTPRouteMatch := []
  filters : List HTTPRouteFilter := []
  backendRefs : List BackendObjectReference := []
  deriving Repr, DecidableEq

/-- `gatewayv1.ParentReference` to the shared gateway. -/
structure ParentReference where
  group : Option String := none
  kind : Option String := none
  ns : Option String := none
  name : String
  deriving Repr, DecidableEq

/-- `metav1.OwnerReference`. -/
structure OwnerReference where
  apiVersion : String
  kind : String
  name : String
  uid : String
  controller : Bool
  blockOwnerDeletion : Bool
  deriving Repr, DecidableEq

/-- `gatewayv1.HTTPRoute` with the metadata fields the controller uses. -/
structure HTTPRoute where
  name : String
  ns : String
  labels : List (String × String) := []
  annotations : AnnotSet := []
  ownerReferences : List OwnerReference := []
  parentRefs : List ParentReference := []
  hostnames : List String := []
  rules : List HTTPRouteRule := []
  deriving Repr, DecidableEq

/-- `config.Config` (the startup options the converter and reconciler read). -/
structure Config where
  gatewayName : String
  gatewayNamespace : String
  ingressClass : String := ""
  deriving Repr, DecidableEq

/-! ### Policy output types (Envoy Gateway v1alpha1, Gateway API BackendTLS) -/

/-- `egv1alpha1.HTTPTimeout` (only `RequestTimeout` is produced). -/
structure HTTPTimeout where
  requestTimeout : Option String := none
  deriving Repr, DecidableEq

/-- `egv1alpha1.ConsistentHashType`. -/
inductive ConsistentHashType
  | sourceIP
  | cookie
  | headers
  | queryParams
  deriving Repr, DecidableEq

/-- `egv1alpha1.ConsistentHash` with the fields `buildLoadBalancer` sets. -/
structure ConsistentHash where
  type : ConsistentHashType
  cookieName : Option String := none
  headerNames : List String := []
  queryParamNames : List String := []
  deriving Repr, DecidableEq

/-- `egv1alpha1.LoadBalancer` (always the consistent-hash type here). -/
structure LoadBalancer where
  consistentHash : Option ConsistentHash := none
  deriving Repr, DecidableEq

/-- A `LocalPolicyTargetReference`. -/
structure PolicyTargetRef where
  group : String
  kind : String
  name : String
  deriving Repr, DecidableEq

/-- `egv1alpha1.BackendTrafficPolicy` as generated. -/
structure BackendTrafficPolicy where
  name : String
  ns : String
  labels : List (String × String) := []
  annotations : AnnotSet := []
  ownerReferences : List OwnerReference := []
  targetRef : PolicyTargetRef
  timeout : Option HTTPTimeout := none
  loadBalancer : Option LoadBalancer := none
  connectionBufferLimit : Option String := none
  deriving Repr, DecidableEq

/-- `egv1alpha1.ClientTrafficPolicy` as generated. -/
structure ClientTrafficPolicy where
  name : String
  ns : String
  labels : List (String × String) := []
  annotations : AnnotSet := []
  ownerReferences : List OwnerReference := []
  targetRef : PolicyTargetRef
  connectionBufferLimit : Option String := none
  deriving Repr, DecidableEq

/-- `egv1alpha1.CORS` with the fields `buildCORS` sets. -/
structure CORS where
  allowOrigins : List String := []
  allowMethods : List String := []
  allowHeaders : List String := []
  exposeHeaders : List String := []
  maxAge : Option String := none
  allowCredentials : Option Bool := none
  deriving Repr, DecidableEq

/-- `egv1alpha1.ExtAuth` with the fields `buildExtAuth` sets. -/
structure ExtAuth where
  serviceName : String
  serviceNamespace : String
  port : Option Int := none
  path : Option String := none
  headersToBackend : List String := []
  deriving Repr, DecidableEq

/-- `egv1alpha1.SecurityPolicy` as generated. -/
structure SecurityPolicy where
  name : String
  ns : String
  labels : List (String × String) := []
  annotations : AnnotSet := []
  ownerReferences : List OwnerReference := []
  targetRef : PolicyTargetRef
  cors : Option CORS := none
  extAuth : Option ExtAuth := none
  deriving Repr, DecidableEq

/-- `converter.ConversionResult`. -/
structure ConversionResult where
  httpRoutes : List HTTPRoute := []
  backendTrafficPolicies : List BackendTrafficPolicy := []
  clientTrafficPolicy : Option ClientTrafficPolicy := none
  securityPolicies : List SecurityPolicy := []
  deriving Repr, DecidableEq

/-! ### The converter (`internal/converter`) -/

def sourceAnnotKey : String := "ingress-gateway-api.io/source"

def finalizerName : String := "ingress-gateway-api.io/finalizer"

/-- The provenance value `"<ns>/<name>"`. -/
def sourceRef (ing : Ingress) : String := ing.ns ++ "/" ++ ing.name

/-- `copyLabels` copies the label map verbatim; on association lists that is
the identity. -/
def copyLabels (labels : List (String × String)) : List (String × String) :=
  labels

/-- `createParentRef`. -/
def createParentRef (cfg : Config) : ParentReference :=
  { group := some "gateway.networking.k8s.io"
    kind := some "Gateway"
    ns := some cfg.gatewayNamespace
    name := cfg.gatewayName }

/-- Host sanitization in `generateRouteName`: `strings.ReplaceAll` of "." with
"-" and of "*" with "wildcard". -/
def sanitizeHost (host : String) : String :=
  goReplaceAll (goReplaceAll host "." "-") "*" "wildcard"

/-- `generateRouteName`. -/
def generateRouteName (ing : Ingress) (host : String) : String :=
  if host = "" then ing.name else ing.name ++ "-" ++ sanitizeHost host

/-- `SetOwnerReference` / `SetPolicyOwnerReference`: the single controller
owner reference pointing at the Ingress. -/
def ingressOwnerRef (ing : Ingress) : OwnerReference :=
  { apiVersion := "networking.k8s.io/v1"
    kind := "Ingress"
    name := ing.name
    uid := ing.uid
    controller := true
    blockOwnerDeletion := true }

/-- Appends `paths` to the entry of `host`, creating it at the end when new:
the grouping loop of `ConvertIngressFull` over the Go map `rulesByHost`,
with first-appearance order standing in for Go's unspecified map order. -/
def addPathsTo (acc : List (String × List HTTPIngressPath)) (host : String)
    (paths : List HTTPIngressPath) : List (String × List HTTPIngressPath) :=
  match acc with
  | [] => [(host, paths)]
  | (h, ps) :: rest =>
    if h = host then (h, ps ++ paths) :: rest
    else (h, ps) :: addPathsTo rest host paths

/-- The rule-grouping loop of `ConvertIngressFull`: rules without an HTTP
block are skipped; the empty host is a valid key. -/
def groupRulesByHost (rules : List IngressRule) :
    List (String × List HTTPIngressPath) :=
  rules.foldl
    (fun acc rule =>
      match rule.http with
      | none => acc
      | some paths => addPathsTo acc rule.host paths)
    []

/-- `convertPathMatch` (the annotation-aware version): Exact maps to Exact;
Prefix and ImplementationSpecific map to PathPrefix, or RegularExpression
when `use-regex` parses to true; a missing path type defaults to Prefix. -/
def convertPathMatch (path : HTTPIngressPath) (annots : Option AnnotSet) :
    HTTPPathMatch :=
  let pathType := path.pathType.getD PathTypeK.prefixPath
  let useRegex : Bool :=
    match annots with
    | none => false
    | some a =>
      match getBool a useRegexKey with
      | some true => true
      | _ => false
  let t : PathMatchType :=
    match pathType with
    | .exact => .exact
    | .prefixPath => if useRegex then .regularExpression else .pathPfx
    | .implSpecific => if useRegex then .regularExpression else .pathPfx
  { type := some t, value := some path.path }

/-- `containsCaptureGroups`: whether the rewrite target matches `\$\d+`. -/
def containsCaptureGroupsL : List Char → Bool
  | [] => false
  | '$' :: c :: rest => if isGoDigit c then true else containsCaptureGroupsL (c :: rest)
  | _ :: rest => containsCaptureGroupsL rest

def containsCaptureGroups (target : String) : Bool :=
  containsCaptureGroupsL target.data

/-- `regexp.MustCompile("\\$\\d+").ReplaceAllString(target, "")`: every `$`
followed by one or more digits is removed together with those digits. -/
def stripCaptureRefs : Nat → List Char → List Char
  | 0, l => l
  | _ + 1, [] => []
  | fuel + 1, '$' :: rest =>
    let ds := rest.takeWhile isGoDigit
    if ds.length > 0 then stripCaptureRefs fuel (rest.drop ds.length)
    else '$' :: stripCaptureRefs fuel rest
  | fuel + 1, c :: rest => c :: stripCaptureRefs fuel rest

/-- `strings.ReplaceAll(result, "//", "/")`: non-overlapping, left to right. -/
def collapseDoubleSlash : List Char → List Char
  | '/' :: '/' :: rest => '/' :: collapseDoubleSlash rest
  | c :: rest => c :: collapseDoubleSlash rest
  | [] => []

/-- `convertCaptureGroups` (the `originalPath` argument is unused in the Go
source as well). -/
def convertCaptureGroups (target _originalPath : String) : String :=
  if target = "/$1" ∨ target = "$1" then "/"
  else
    let result := String.mk (collapseDoubleSlash (stripCaptureRefs target.data.length target.data))
    if result = "" then "/" else result

/-- `addRewriteFilter`. -/
def addRewriteFilter (rule : HTTPRouteRule) (annots : AnnotSet)
    (originalPath : String) : HTTPRouteRule :=
  match getString annots rewriteTargetKey with
  | none => rule
  | some rewriteTarget =>
    let pathMod : HTTPPathModifier :=
      if containsCaptureGroups rewriteTarget then
        { type := .prefixMatch
          replacePrefixMatch := some (convertCaptureGroups rewriteTarget originalPath) }
      else if rewriteTarget = "/" then
        { type := .prefixMatch, replacePrefixMatch := some "/" }
      else
        { type := .fullPath, replaceFullPath := some rewriteTarget }
    { rule with
      filters := rule.filters ++ [.urlRewrite { path := some pathMod }] }

/-- Whether a route match targets path literally "/". -/
def matchIsRoot (m : HTTPRouteMatch) : Bool :=
  match m.path with
  | some pm =>
    match pm.value with
    | some v => v = "/"
    | none => false
  | none => false

/-- The app-root filter: a 302 redirect with full-path replacement. -/
def appRootFilterV (appRoot : String) : HTTPRouteFilter :=
  .requestRedirect
    { statusCode := some 302
      path := some { type := .fullPath, replaceFullPath := some appRoot } }

/-- `addAppRootRedirect`: a 302 redirect with full-path replacement, appended
once when some match targets "/" (the Go loop returns after the first). -/
def addAppRootRedirect (rule : HTTPRouteRule) (annots : AnnotSet) :
    HTTPRouteRule :=
  match getString annots appRootKey with
  | none => rule
  | some appRoot =>
    if rule.matchList.isEmpty then rule
    else if rule.matchList.any matchIsRoot then
      { rule with filters := rule.filters ++ [appRootFilterV appRoot] }
    else rule

/-- The SSL-redirect filter: scheme https, status 301. -/
def sslRedirectFilterV : HTTPRouteFilter :=
  .requestRedirect { scheme := some "https", statusCode := some 301 }

/-- `addSSLRedirectFilter`: scheme https, status 301. -/
def addSSLRedirectFilter (rule : HTTPRouteRule) (annots : AnnotSet) :
    HTTPRouteRule :=
  if ¬ hasSSLRedirect annots then rule
  else { rule with filters := rule.filters ++ [sslRedirectFilterV] }

/-- `applyFilters`: SSL redirect first; then the app-root redirect (marking
the rule redirecting only when a filter was actually appended); the rewrite
filter only when no redirect was applied.  Returns the rule and the
`hasRedirect` flag. -/
def applyFilters (rule0 : HTTPRouteRule) (annots : AnnotSet)
    (originalPath : String) : HTTPRouteRule × Bool :=
  let (rule1, hasRedirect1) :=
    if hasSSLRedirect annots then (addSSLRedirectFilter rule0 annots, true)
    else (rule0, false)
  let (rule2, hasRedirect2) :=
    if hasAppRoot annots then
      let beforeLen := rule1.filters.length
      let r := addAppRootRedirect rule1 annots
      (r, hasRedirect1 || r.filters.length > beforeLen)
    else (rule1, hasRedirect1)
  let rule3 :=
    if ¬ hasRedirect2 ∧ hasRewrite annots then addRewriteFilter rule2 annots originalPath
    else rule2
  (rule3, hasRedirect2)

/-- A port resolver: `ResolvePort(ctx, namespace, serviceName, portName,
portNumber)`, with an error collapsed to `none`. -/
abbrev Resolver : Type := String → String → String → Int → Option Int

/-- `NoopServicePortResolver.ResolvePort`: a non-zero numeric port is
returned unchanged; a named port is an error. -/
def noopResolvePort : Resolver :=
  fun _ _ _ portNumber => if portNumber ≠ 0 then some portNumber else none

/-- `ClientServicePortResolver.ResolvePort` against a fixed service table
`services : (namespace, name) → list of (portName, port)`: a non-zero
numeric port is returned unchanged; otherwise the named port is looked up in
the service's ports. -/
def clientResolvePort
    (services : List ((String × String) × List (String × Int))) : Resolver :=
  fun ns serviceName portName portNumber =>
    if portNumber ≠ 0 then some portNumber
    else if portName = "" then none
    else
      match List.find? (fun e => e.1 = (ns, serviceName)) services with
      | none => none
      | some svc =>
        match List.find? (fun p => p.1 = portName) svc.2 with
        | none => none
        | some p => some p.2

/-- `resolveServicePort`: a resolver error yields a nil port (the backend ref
is still emitted). -/
def resolveServicePort (resolver : Resolver) (ns serviceName : String)
    (port : ServiceBackendPort) : Option Int :=
  match resolver ns serviceName port.name port.number with
  | none => none
  | some resolved => some resolved

/-- `convertIngressBackend`: service backends carry group "", kind "Service"
and the resolved port; resource backends pass group/kind/name through; an
empty backend yields the zero-valued reference. -/
def convertIngressBackend (resolver : Resolver) (ns : String)
    (backend : IngressBackend) : BackendObjectReference :=
  match backend.service with
  | some svc =>
    { group := some ""
      kind := some "Service"
      name := svc.name
      port := resolveServicePort resolver ns svc.name svc.port }
  | none =>
    match backend.resource with
    | some res =>
      { group := some (res.apiGroup.getD "")
        kind := some res.kind
        name := res.name }
    | none => {}

/-- `convertBackend` (nil-pointer guard around `convertIngressBackend`). -/
def convertBackend (resolver : Resolver) (ns : String)
    (backend : Option IngressBackend) : BackendObjectReference :=
  match backend with
  | none => {}
  | some b => convertIngressBackend resolver ns b

/-- `convertPathWithFilters`: the path match (when the path string is
non-empty), then the annotation filters, then the backend ref unless a
redirect filter was applied. -/
def convertPathWithFilters (resolver : Resolver) (ns : String)
    (path : HTTPIngressPath) (annots : Option AnnotSet) : HTTPRouteRule :=
  let originalPath := path.path
  let rule0 : HTTPRouteRule :=
    if originalPath ≠ "" then
      { matchList := [{ path := some (convertPathMatch path annots) }] }
    else {}
  let (rule1, hasRedirect) :=
    match annots with
    | some a =>
      if hasHTTPRouteFilters a then applyFilters rule0 a originalPath
      else (rule0, false)
    | none => (rule0, false)
  if ¬ hasRedirect then
    { rule1 with backendRefs := [convertIngressBackend resolver ns path.backend] }
  else rule1

/-- `createHTTPRouteWithFilters`. -/
def createHTTPRouteWithFilters (cfg : Config) (resolver : Resolver)
    (ing : Ingress) (host : String) (paths : List HTTPIngressPath)
    (annots : Option AnnotSet) : HTTPRoute :=
  { name := generateRouteName ing host
    ns := ing.ns
    labels := copyLabels ing.labels
    annotations := [(sourceAnnotKey, sourceRef ing)]
    parentRefs := [createParentRef cfg]
    hostnames := if host ≠ "" then [host] else []
    rules := paths.map (fun p => convertPathWithFilters resolver ing.ns p annots) }

/-- `createDefaultBackendRoute`. -/
def createDefaultBackendRoute (cfg : Config) (resolver : Resolver)
    (ing : Ingress) : HTTPRoute :=
  { name := ing.name
    ns := ing.ns
    labels := copyLabels ing.labels
    annotations := [(sourceAnnotKey, sourceRef ing)]
    parentRefs := [createParentRef cfg]
    rules := [{ backendRefs := [convertBackend resolver ing.ns ing.defaultBackend] }] }

/-! ### Policy generation (`internal/converter/policies.go`) -/

/-- `buildTimeout`: the request timeout is the read timeout, replaced by the
send timeout when the send timeout's rendered string is Go-string-greater
(`*sendTimeout > *requestTimeout` compares `gatewayv1.Duration` strings). -/
def buildTimeout (annots : AnnotSet) : HTTPTimeout :=
  let afterRead : Option String := getDuration annots proxyReadTimeoutKey
  let requestTimeout : Option String :=
    match getDuration annots proxySendTimeoutKey with
    | none => afterRead
    | some sendTimeout =>
      match afterRead with
      | none => some sendTimeout
      | some readTimeout =>
        if goStrGt sendTimeout readTimeout then some sendTimeout
        else some readTimeout
  { requestTimeout := requestTimeout }

/-- `buildLoadBalancer`. -/
def buildLoadBalancer (annots : AnnotSet) : Option LoadBalancer :=
  match getString annots upstreamHashByKey with
  | none => none
  | some hashBy0 =>
    let hashBy := goTrimSpace hashBy0
    let ch : ConsistentHash :=
      if hashBy = "$remote_addr" ∨ hashBy = "$binary_remote_addr" then
        { type := .sourceIP }
      else if goStartsWith hashBy "$cookie_" then
        { type := .cookie, cookieName := some (goStrDrop hashBy 8) }
      else if goStartsWith hashBy "$http_" then
        { type := .headers, headerNames := [goReplaceAll (goStrDrop hashBy 6) "_" "-"] }
      else if goStartsWith hashBy "$arg_" then
        { type := .queryParams, queryParamNames := [goStrDrop hashBy 5] }
      else
        { type := .headers, headerNames := [hashBy] }
    some { consistentHash := some ch }

/-- `generateBackendTrafficPolicy`: nothing without a gating annotation;
otherwise named `<routeName>-backend`, targeting the route, with timeout,
load-balancer and buffer-limit sections per their own predicates. -/
def generateBackendTrafficPolicy (ing : Ingress) (route : HTTPRoute)
    (annots : AnnotSet) : Option BackendTrafficPolicy :=
  if ¬ hasBackendTrafficPolicyAnnotations annots then none
  else
    some
      { name := route.name ++ "-backend"
        ns := ing.ns
        labels := copyLabels ing.labels
        annotations := [(sourceAnnotKey, sourceRef ing)]
        targetRef :=
          { group := "gateway.networking.k8s.io", kind := "HTTPRoute", name := route.name }
        timeout := if hasTimeout annots then some (buildTimeout annots) else none
        loadBalancer := if hasLoadBalancer annots then buildLoadBalancer annots else none
        connectionBufferLimit := getQuantity annots proxyBodySizeKey }

/-- `generateClientTrafficPolicy`: at most one per Ingress, named
`<name>-client`, targeting the gateway. -/
def generateClientTrafficPolicy (cfg : Config) (ing : Ingress)
    (annots : AnnotSet) : Option ClientTrafficPolicy :=
  if ¬ hasClientTrafficPolicyAnnotations annots then none
  else
    some
      { name := ing.name ++ "-client"
        ns := ing.ns
        labels := copyLabels ing.labels
        annotations := [(sourceAnnotKey, sourceRef ing)]
        targetRef :=
          { group := "gateway.networking.k8s.io", kind := "Gateway", name := cfg.gatewayName }
        connectionBufferLimit := getQuantity annots proxyBufferSizeKey }

/-- `buildCORS`. -/
def buildCORS (annots : AnnotSet) : CORS :=
  { allowOrigins := (getStringSlice annots corsAllowOriginKey).getD []
    allowMethods := (getStringSlice annots corsAllowMethodsKey).getD []
    allowHeaders := (getStringSlice annots corsAllowHeadersKey).getD []
    exposeHeaders := (getStringSlice annots corsExposeHeadersKey).getD []
    maxAge := getDuration annots corsMaxAgeKey
    allowCredentials := getBool annots corsAllowCredentialsKey }

/-- Models `net/url.Parse` for the values this controller receives: with a
"://" the remainder splits into an authority (up to the first "/"), whose
port is the digit run after the last ":", and a path; without "://" the whole
value is an opaque path with an empty hostname, exactly what the caller's
host-part check rejects.  Returns (scheme, hostname, port, path). -/
def parseURLModel (s : String) : String × String × String × String :=
  match goSplitOn s "://" with
  | [] => ("", "", "", s)
  | [_] => ("", "", "", s)
  | scheme :: restParts =>
    let after := goIntercalate "://" restParts
    let authority := String.mk (after.data.takeWhile (fun c => c ≠ '/'))
    let path := String.mk (after.data.dropWhile (fun c => c ≠ '/'))
    let segs := goSplitOn authority ":"
    match segs.getLast? with
    | some lastSeg =>
      if segs.length ≥ 2 ∧ ¬ lastSeg.isEmpty ∧ lastSeg.data.all isGoDigit then
        (scheme, goIntercalate ":" (segs.dropLast), lastSeg, path)
      else (scheme, authority, "", path)
    | none => (scheme, authority, "", path)

/-- `parsePort` (`fmt.Sscanf` with `%d`): the leading digit run. -/
def parsePortModel (port : String) : Option Int :=
  let ds := port.data.takeWhile isGoDigit
  if ds.isEmpty then none else some ((digitsToNat ds : Nat) : Int)

/-- `buildExtAuth`: service and namespace are the first two dot-separated
host parts; the port is the explicit one, else 443 for https and 80
otherwise; the path is kept unless empty or "/". -/
def buildExtAuth (annots : AnnotSet) : Option ExtAuth :=
  match getString annots authURLKey with
  | none => none
  | some authURL =>
    let (scheme, hostname, portStr, path) := parseURLModel authURL
    let hostParts := goSplitOn hostname "."
    if hostParts.length < 2 then none
    else
      let serviceName := hostParts.getD 0 ""
      let serviceNamespace := hostParts.getD 1 ""
      let port : Int :=
        if portStr ≠ "" then
          match parsePortModel portStr with
          | some p => p
          | none => 0
        else if scheme = "https" then 443
        else 80
      some
        { serviceName := serviceName
          serviceNamespace := serviceNamespace
          port := if port > 0 then some port else none
          path := if path ≠ "" ∧ path ≠ "/" then some path else none
          headersToBackend := (getStringSlice annots authResponseHeadersKey).getD [] }

/-- `generateSecurityPolicy`: nothing without a CORS or ExtAuth annotation;
otherwise named `<routeName>-security`, targeting the route. -/
def generateSecurityPolicy (ing : Ingress) (route : HTTPRoute)
    (annots : AnnotSet) : Option SecurityPolicy :=
  if ¬ hasSecurityPolicyAnnotations annots then none
  else
    some
      { name := route.name ++ "-security"
        ns := ing.ns
        labels := copyLabels ing.labels
        annotations := [(sourceAnnotKey, sourceRef ing)]
        targetRef :=
          { group := "gateway.networking.k8s.io", kind := "HTTPRoute", name := route.name }
        cors := if hasCORS annots then some (buildCORS annots) else none
        extAuth := if hasExtAuth annots then buildExtAuth annots else none }

/-- `ConvertIngressFull` (the staged source does not generate
BackendTLSPolicies): one route per grouped host, each with its optional
backend-traffic and security policy; the default-backend route only when no
host produced a route; at most one client-traffic policy per Ingress. -/
def convertIngressFull (cfg : Config) (resolver : Resolver) (ing : Ingress) :
    ConversionResult :=
  let annots : AnnotSet := ing.annotations
  let byHost := groupRulesByHost ing.rules
  let routes := byHost.map
    (fun hp => createHTTPRouteWithFilters cfg resolver ing hp.1 hp.2 (some annots))
  let btps := routes.filterMap (fun r => generateBackendTrafficPolicy ing r annots)
  let sps := routes.filterMap (fun r => generateSecurityPolicy ing r annots)
  let (routes1, btps1, sps1) :=
    if ing.defaultBackend.isSome ∧ routes.isEmpty then
      let r := createDefaultBackendRoute cfg resolver ing
      ([r],
       (generateBackendTrafficPolicy ing r annots).toList,
       (generateSecurityPolicy ing r annots).toList)
    else (routes, btps, sps)
  { httpRoutes := routes1
    backendTrafficPolicies := btps1
    clientTrafficPolicy := generateClientTrafficPolicy cfg ing annots
    securityPolicies := sps1 }

/-! ### Spec-modelled converter parts

The staged sources reference but do not contain two pieces of the converter:
`extractStaticPrefix` with the regex-downgrade step of `convertPathMatch`
(exercised by `TestExtractStaticPrefix` and the conversion test "regex path
with rewrite-target capture group converts to PathPrefix"), and
`generateBackendTLSPolicies` with `AnnotationSet.HasBackendTLSPolicy`
(exercised by `TestGenerateBackendTLSPolicies` and `TestHasBackendTLSPolicy`).
They are modelled here from the spec's words. -/

/-- The regex metacharacters of RE2's syntax. -/
def isRegexMeta (c : Char) : Bool :=
  c = '(' ∨ c = ')' ∨ c = '[' ∨ c = ']' ∨ c = '{' ∨ c = '}' ∨ c = '*' ∨
  c = '+' ∨ c = '?' ∨ c = '.' ∨ c = '^' ∨ c = '$' ∨ c = '|' ∨ c = '\\'

/-- Modelled from the spec: `extractStaticPrefix` is not among the staged
sources (only `TestExtractStaticPrefix` in
`src/internal/converter/converter_test.go` references it).  Spec: "the
longest literal prefix of the original regex (i.e. the substring before the
first regex metacharacter)"; the test vectors show an empty prefix falling
back to "/". -/
def extractStaticPrefix (s : String) : String :=
  let p := String.mk (s.data.takeWhile (fun c => ! isRegexMeta c))
  if p = "" then "/" else p

/-- Whether a path-match value contains a regex capture-group pattern
(an opening parenthesis). -/
def containsCaptureGroupPattern (s : String) : Bool := s.data.contains '('

/-- Modelled from the spec: the regex-downgrade step (spec §4.2, rule
construction step 4) is not among the staged sources (the staged
`convertPathWithFilters` omits it; the conversion test asserts it).  After
the filters are applied, when the path value contains a capture-group
pattern and a URL-rewrite filter was emitted, the path match is downgraded
to PathPrefix with the longest literal prefix of the original value. -/
def convertPathWithFiltersFull (resolver : Resolver) (ns : String)
    (path : HTTPIngressPath) (annots : Option AnnotSet) : HTTPRouteRule :=
  let rule := convertPathWithFilters resolver ns path annots
  if rule.filters.any isURLRewriteFilter ∧ containsCaptureGroupPattern path.path then
    { rule with
      matchList :=
        [{ path := some
            { type := some .pathPfx, value := some (extractStaticPrefix path.path) } }] }
  else rule

/-- The keep-first deduplication loop (a Go `seen` map plus an output
slice): an element already seen is skipped, a new one is emitted and
recorded. -/
def dedupAux (seen : List String) : List String → List String
  | [] => []
  | x :: xs => if x ∈ seen then dedupAux seen xs else x :: dedupAux (x :: seen) xs

/-- Deduplication preserving the order of first appearance. -/
def dedupFirst (l : List String) : List String := dedupAux [] l

def backendProtocolKey : String := nginxAnnotationPrefix ++ "backend-protocol"

/-- Modelled from the spec: `AnnotationSet.HasBackendTLSPolicy` is not among
the staged sources (only `TestHasBackendTLSPolicy` references it).  Spec:
present iff `backend-protocol == "HTTPS"` exactly, case-sensitively. -/
def hasBackendTLSPolicy (a : AnnotSet) : Bool :=
  lookupAnnot a backendProtocolKey = some "HTTPS"

/-- The backend service names referenced by a list of routes, in rule and
backend-ref order, keeping refs whose kind is "Service". -/
def routeServiceNames (routes : List HTTPRoute) : List String :=
  (routes.map (fun r =>
    (r.rules.map (fun rule =>
      rule.backendRefs.filterMap (fun ref =>
        if ref.kind = some "Service" then some ref.name else none))).flatten)).flatten

/-- A generated `gatewayv1.BackendTLSPolicy` as the spec and the tests
describe it: targeting one backend service, validating against the system
trust store (the spec does not name the policy; the target's name stands for
identity here). -/
structure BackendTLSPolicyGen where
  ns : String
  labels : List (String × String) := []
  annotations : AnnotSet := []
  targetName : String
  wellKnownCACertificates : String
  deriving Repr, DecidableEq

/-- Modelled from the spec: `generateBackendTLSPolicies` is not among the
staged sources (only `TestGenerateBackendTLSPolicies` references it; the
staged `ConvertIngressFull` does not call it).  Spec: "Zero or more
BackendTLSPolicy objects, one per unique backend service referenced by the
Routes, present iff the backend-protocol=HTTPS annotation (case-sensitive,
exact value \"HTTPS\") is present", "deduplicating backend service names,
preserving the order of first appearance", with system-trust validation. -/
def generateBackendTLSPolicies (ing : Ingress) (routes : List HTTPRoute)
    (annots : AnnotSet) : List BackendTLSPolicyGen :=
  if ¬ hasBackendTLSPolicy annots then []
  else
    (dedupFirst (routeServiceNames routes)).map fun svc =>
      { ns := ing.ns
        labels := copyLabels ing.labels
        annotations := [(sourceAnnotKey, sourceRef ing)]
        targetName := svc
        wellKnownCACertificates := "System" }

/-! ### The reconciler (`internal/controller/ingress_controller.go`) -/

/-- A live `ReferenceGrant` (the fields the reconciler reads or writes). -/
structure ReferenceGrant where
  name : String
  ns : String
  annotations : AnnotSet := []
  fromNamespace : String := ""
  deriving Repr, DecidableEq

/-- A live `BackendTLSPolicy` in the cluster (the staged controller never
creates, updates or deletes one; the type records what a previous version or
another writer left in the store). -/
structure BackendTLSPolicyRes where
  name : String
  ns : String
  annotations : AnnotSet := []
  targetName : String := ""
  deriving Repr, DecidableEq

/-- The typed object store the reconciler reads and writes, one list per
kind it lists or writes. -/
structure Cluster where
  routes : List HTTPRoute := []
  btps : List BackendTrafficPolicy := []
  ctps : List ClientTrafficPolicy := []
  sps : List SecurityPolicy := []
  btls : List BackendTLSPolicyRes := []
  refGrants : List ReferenceGrant := []
  deriving Repr, DecidableEq

/-- `getIngressClass`: `spec.ingressClassName`, else the legacy annotation,
else empty. -/
def getIngressClass (ing : Ingress) : String :=
  match ing.ingressClassName with
  | some c => c
  | none => (lookupAnnot ing.annotations "kubernetes.io/ingress.class").getD ""

/-- `shouldProcess`: an empty filter accepts everything. -/
def shouldProcess (cfg : Config) (ing : Ingress) : Bool :=
  cfg.ingressClass = "" ∨ getIngressClass ing = cfg.ingressClass

/-- Create-or-update of an HTTPRoute against an accepting store
(`reconcileHTTPRoute` with every API call succeeding): read by (namespace,
name); create on not-found, else overwrite spec, labels, annotations and
owner references. -/
def upsertRoute (c : Cluster) (r : HTTPRoute) : Cluster :=
  if c.routes.any (fun x => x.ns = r.ns ∧ x.name = r.name) then
    { c with routes := c.routes.map (fun x => if x.ns = r.ns ∧ x.name = r.name then r else x) }
  else { c with routes := c.routes ++ [r] }

/-- Create-or-update of a BackendTrafficPolicy (accepting store). -/
def upsertBTP (c : Cluster) (p : BackendTrafficPolicy) : Cluster :=
  if c.btps.any (fun x => x.ns = p.ns ∧ x.name = p.name) then
    { c with btps := c.btps.map (fun x => if x.ns = p.ns ∧ x.name = p.name then p else x) }
  else { c with btps := c.btps ++ [p] }

/-- Create-or-update of a ClientTrafficPolicy (accepting store). -/
def upsertCTP (c : Cluster) (p : ClientTrafficPolicy) : Cluster :=
  if c.ctps.any (fun x => x.ns = p.ns ∧ x.name = p.name) then
    { c with ctps := c.ctps.map (fun x => if x.ns = p.ns ∧ x.name = p.name then p else x) }
  else { c with ctps := c.ctps ++ [p] }

/-- Create-or-update of a SecurityPolicy (accepting store). -/
def upsertSP (c : Cluster) (p : SecurityPolicy) : Cluster :=
  if c.sps.any (fun x => x.ns = p.ns ∧ x.name = p.name) then
    { c with sps := c.sps.map (fun x => if x.ns = p.ns ∧ x.name = p.name then p else x) }
  else { c with sps := c.sps ++ [p] }

/-- Create-or-update of a ReferenceGrant (accepting store). -/
def upsertRefGrant (c : Cluster) (g : ReferenceGrant) : Cluster :=
  if c.refGrants.any (fun x => x.ns = g.ns ∧ x.name = g.name) then
    { c with refGrants := c.refGrants.map (fun x => if x.ns = g.ns ∧ x.name = g.name then g else x) }
  else { c with refGrants := c.refGrants ++ [g] }

/-- The backend namespaces of `reconcileReferenceGrants`' collection loop:
every backend-ref namespace differing from its route's namespace, without
duplicates (a Go map of namespaces; first-appearance order stands in for the
map's unspecified order). -/
def collectForeignNamespaces (routes : List HTTPRoute) : List String :=
  dedupFirst
    ((routes.map (fun r =>
      (r.rules.map (fun rule =>
        rule.backendRefs.filterMap (fun ref =>
          match ref.ns with
          | some n => if n ≠ r.ns then some n else none
          | none => none))).flatten)).flatten)

/-- `reconcileReferenceGrants`: one grant per foreign backend namespace,
named `ingress-<ns>-<name>`, carrying the provenance annotation, permitting
HTTPRoute-from-the-Ingress-namespace; created or updated in that foreign
namespace. -/
def reconcileReferenceGrants (ing : Ingress) (routes : List HTTPRoute)
    (c : Cluster) : Cluster :=
  (collectForeignNamespaces routes).foldl
    (fun acc nsx =>
      upsertRefGrant acc
        { name := "ingress-" ++ ing.ns ++ "-" ++ ing.name
          ns := nsx
          annotations := [(sourceAnnotKey, sourceRef ing)]
          fromNamespace := ing.ns })
    c

/-- `deleteOwnedHTTPRoutes`: list the Ingress's namespace, delete every route
whose provenance annotation equals `"<ns>/<name>"` (a missing annotation
reads as "" in Go). -/
def deleteOwnedHTTPRoutes (ing : Ingress) (c : Cluster) : Cluster :=
  { c with
    routes := c.routes.filter (fun r =>
      ¬ (r.ns = ing.ns ∧ (lookupAnnot r.annotations sourceAnnotKey).getD "" = sourceRef ing)) }

/-- `deleteOwnedPolicies`: the same provenance-filtered deletion for
BackendTrafficPolicies, ClientTrafficPolicies and SecurityPolicies — and for
no other kind. -/
def deleteOwnedPolicies (ing : Ingress) (c : Cluster) : Cluster :=
  { c with
    btps := c.btps.filter (fun p =>
      ¬ (p.ns = ing.ns ∧ (lookupAnnot p.annotations sourceAnnotKey).getD "" = sourceRef ing))
    ctps := c.ctps.filter (fun p =>
      ¬ (p.ns = ing.ns ∧ (lookupAnnot p.annotations sourceAnnotKey).getD "" = sourceRef ing))
    sps := c.sps.filter (fun p =>
      ¬ (p.ns = ing.ns ∧ (lookupAnnot p.annotations sourceAnnotKey).getD "" = sourceRef ing)) }

/-- The reconcile outcome (`ctrl.Result`; the error is not produced on the
accepting-store paths modelled here). -/
structure ReconcileResult where
  requeue : Bool := false
  requeueAfterNs : Int := 0
  deriving Repr, DecidableEq

/-- `handleDeletion` (accepting store): while the finalizer is present,
delete owned HTTPRoutes, then owned policies, then remove the finalizer by
patch. -/
def handleDeletion (ing : Ingress) (c : Cluster) :
    Cluster × Ingress × ReconcileResult :=
  if ing.finalizers.contains finalizerName then
    let c1 := deleteOwnedHTTPRoutes ing c
    let c2 := deleteOwnedPolicies ing c1
    let ing1 := { ing with finalizers := ing.finalizers.filter (fun f => f ≠ finalizerName) }
    (c2, ing1, {})
  else (c, ing, {})

/-- `Reconcile` with every API call accepted (the fake-client environment of
the repository's controller tests): class filter, deletion handling,
finalizer addition, conversion, create-or-update of every emitted resource,
reference grants.  The staged source performs no garbage collection of stale
resources and never touches BackendTLSPolicies.  The best-effort status
update writes only `ingress.status`, which the store does not model. -/
def reconcile (cfg : Config) (resolver : Resolver) (ing : Ingress)
    (c : Cluster) : Cluster × Ingress × ReconcileResult :=
  if ¬ shouldProcess cfg ing then (c, ing, {})
  else if ing.deletionTimestampSet then handleDeletion ing c
  else if ¬ ing.finalizers.contains finalizerName then
    (c, { ing with finalizers := ing.finalizers ++ [finalizerName] }, { requeue := true })
  else
    let result := convertIngressFull cfg resolver ing
    let c1 := result.httpRoutes.foldl
      (fun acc r => upsertRoute acc { r with ownerReferences := [ingressOwnerRef ing] }) c
    let c2 := reconcileReferenceGrants ing result.httpRoutes c1
    let c3 := result.backendTrafficPolicies.foldl
      (fun acc p => upsertBTP acc { p with ownerReferences := [ingressOwnerRef ing] }) c2
    let c4 :=
      match result.clientTrafficPolicy with
      | some p => upsertCTP c3 { p with ownerReferences := [ingressOwnerRef ing] }
      | none => c3
    let c5 := result.securityPolicies.foldl
      (fun acc p => upsertSP acc { p with ownerReferences := [ingressOwnerRef ing] }) c4
    (c5, ing, {})

/-! ### Error classification (`handleReconcileError`, `reconcileHTTPRoute`) -/

/-- The API error taxonomy the controller distinguishes
(`apierrors.IsNotFound`, `IsInvalid`, `IsBadRequest`, `IsConflict`); every
other status code is `other`. -/
inductive ApiError
  | notFound
  | invalid
  | badRequest
  | conflict
  | other (code : Nat)
  deriving Repr, DecidableEq

def isNotFoundErr : ApiError → Bool
  | .notFound => true
  | _ => false

def isInvalidErr : ApiError → Bool
  | .invalid => true
  | _ => false

def isBadRequestErr : ApiError → Bool
  | .badRequest => true
  | _ => false

/-- A reconcile error as `reconcileHTTPRoute` returns it: wrapped by
`newPermanentError` or passed through unchanged. -/
inductive ReconcileErr
  | permanent (e : ApiError)
  | transient (e : ApiError)
  deriving Repr, DecidableEq

/-- `permanentRequeueDelay = 5 * time.Minute`, in nanoseconds. -/
def permanentRequeueDelayNs : Int := 5 * 60 * 1000000000

/-- `handleReconcileError`: a permanent error becomes requeue-after-delay
with a nil error; a transient error is returned to the runtime. -/
def handleReconcileError : ReconcileErr → ReconcileResult × Option ApiError
  | .permanent _ => ({ requeueAfterNs := permanentRequeueDelayNs }, none)
  | .transient e => ({}, some e)

/-- The error classification of the create path shared by every
create-or-update routine: `Invalid` and `BadRequest` become permanent,
everything else transient. -/
def classifyWriteError (e : ApiError) : ReconcileErr :=
  if isInvalidErr e || isBadRequestErr e then .permanent e else .transient e

/-- The control flow of `reconcileHTTPRoute` with its three API calls
abstracted by their outcomes: read by key; on not-found create, classifying
the error; on any other read error pass it through (transient); on success
update, classifying the error the same way. -/
def reconcileHTTPRouteOutcome (getRes createRes updateRes : Except ApiError Unit) :
    Option ReconcileErr :=
  match getRes with
  | .error e =>
    if isNotFoundErr e then
      match createRes with
      | .ok _ => none
      | .error ce => some (classifyWriteError ce)
    else some (.transient e)
  | .ok _ =>
    match updateRes with
    | .ok _ => none
    | .error ue => some (classifyWriteError ue)

/-- `Reconcile`'s treatment of one create-or-update step: a nil error
continues, anything else goes through `handleReconcileError`. -/
def reconcileStepResult (getRes createRes updateRes : Except ApiError Unit) :
    ReconcileResult × Option ApiError :=
  match reconcileHTTPRouteOutcome getRes createRes updateRes with
  | none => ({}, none)
  | some err => handleReconcileError err

/-! ### Concrete instances used by the closed theorems -/

def exCfg : Config :=
  { gatewayName := "test-gateway", gatewayNamespace := "envoy-gateway" }

def exBackend : IngressBackend :=
  { service := some { name := "api-service", port := { number := 80 } } }

def exPath : HTTPIngressPath :=
  { path := "/api", pathType := some PathTypeK.prefixPath, backend := exBackend }

def exRule : IngressRule := { host := "example.com", http := some [exPath] }

/-- An Ingress carrying `enable-cors=true` and the finalizer. -/
def exIngressCors : Ingress :=
  { name := "test-ingress"
    ns := "default"
    uid := "test-uid"
    finalizers := [finalizerName]
    annotations := [(corsEnabledKey, "true")]
    rules := [exRule] }

/-- The same Ingress after the `enable-cors` annotation is removed. -/
def exIngressNoCors : Ingress := { exIngressCors with annotations := [] }

/-- The same Ingress with its deletion timestamp set. -/
def exIngressDeleting : Ingress := { exIngressCors with deletionTimestampSet := true }

/-- A foreign-namespace ReferenceGrant carrying this Ingress's provenance, as
`reconcileReferenceGrants` creates them. -/
def exRefGrant : ReferenceGrant :=
  { name := "ingress-default-test-ingress"
    ns := "foreign"
    annotations := [(sourceAnnotKey, "default/test-ingress")]
    fromNamespace := "default" }

/-- A live BackendTLSPolicy carrying this Ingress's provenance. -/
def exBTLS : BackendTLSPolicyRes :=
  { name := "test-ingress-api-service-backend-tls"
    ns := "default"
    annotations := [(sourceAnnotKey, "default/test-ingress")]
    targetName := "api-service" }

/-- A live HTTPRoute carrying this Ingress's provenance. -/
def exLiveRoute : HTTPRoute :=
  { name := "test-ingress-example-com"
    ns := "default"
    annotations := [(sourceAnnotKey, "default/test-ingress")] }

/-- A live SecurityPolicy carrying this Ingress's provenance. -/
def exLiveSP : SecurityPolicy :=
  { name := "test-ingress-example-com-security"
    ns := "default"
    annotations := [(sourceAnnotKey, "default/test-ingress")]
    targetRef := { group := "gateway.networking.k8s.io", kind := "HTTPRoute",
                   name := "test-ingress-example-com" } }

/-- The cluster a deleting reconcile starts from: the derived route and
security policy, a provenance-matching BackendTLSPolicy, and the
cross-namespace ReferenceGrant. -/
def exClusterDeleting : Cluster :=
  { routes := [exLiveRoute]
    sps := [exLiveSP]
    btls := [exBTLS]
    refGrants := [exRefGrant] }

/-- Two rule hosts whose sanitized forms coincide. -/
def exIngressCollide : Ingress :=
  { name := "n"
    ns := "default"
    rules := [{ host := "a.b", http := some [exPath] },
              { host := "a-b", http := some [exPath] }] }

/-- The regex-downgrade example: `use-regex=true`, `rewrite-target=/$2`,
path `/data(/|$)(.*)`. -/
def exAnnotsRegex : AnnotSet :=
  [(useRegexKey, "true"), (rewriteTargetKey, "/$2")]

def exPathRegex : HTTPIngressPath :=
  { path := "/data(/|$)(.*)", pathType := some PathTypeK.prefixPath, backend := exBackend }

/-- ssl-redirect together with app-root on the root path. -/
def exAnnotsSslAppRoot : AnnotSet :=
  [(sslRedirectKey, "true"), (appRootKey, "/app")]

def exPathRoot : HTTPIngressPath :=
  { path := "/", pathType := some PathTypeK.prefixPath, backend := exBackend }

/-- Routes referencing services a, a, b — the dedup vector of
`TestGenerateBackendTLSPolicies`. -/
def exRouteSvc (svc : String) : HTTPRouteRule :=
  { backendRefs := [{ group := some "", kind := some "Service", name := svc }] }

def exRoutesTLS : List HTTPRoute :=
  [{ name := "r1", ns := "default", rules := [exRouteSvc "s1", exRouteSvc "s1"] },
   { name := "r2", ns := "default", rules := [exRouteSvc "s2"] }]

def exSvcNamed : IngressServiceBackend := { name := "svc", port := { name := "http" } }

def exPathNamedPort : HTTPIngressPath :=
  { path := "/api", backend := { service := some exSvcNamed } }

/-- read=600 renders as "10m", send=90 renders as "1m30s". -/
def exAnnotsTimeout : AnnotSet :=
  [(proxyReadTimeoutKey, "600"), (proxySendTimeoutKey, "90")]

/-! ### Helper lemmas -/

theorem dedupAux_sublist (l : List String) :
    ∀ seen : List String, List.Sublist (dedupAux seen l) l := by
  induction l with
  | nil => intro seen; simp [dedupAux]
  | cons x xs ih =>
    intro seen
    by_cases hx : x ∈ seen
    · simpa [dedupAux, hx] using List.Sublist.cons x (ih seen)
    · simpa [dedupAux, hx] using List.Sublist.cons₂ x (ih (x :: seen))

theorem mem_dedupAux (a : String) (l : List String) :
    ∀ seen : List String, a ∈ dedupAux seen l ↔ a ∈ l ∧ a ∉ seen := by
  induction l with
  | nil => intro seen; simp [dedupAux]
  | cons x xs ih =>
    intro seen
    by_cases hx : x ∈ seen
    · rw [show dedupAux seen (x :: xs) = dedupAux seen xs from by simp [dedupAux, hx]]
      rw [ih seen]
      constructor
      · rintro ⟨h1, h2⟩; exact ⟨List.mem_cons_of_mem x h1, h2⟩
      · rintro ⟨h1, h2⟩
        rcases List.mem_cons.mp h1 with h | h
        · exact absurd (h ▸ hx) h2
        · exact ⟨h, h2⟩
    · rw [show dedupAux seen (x :: xs) = x :: dedupAux (x :: seen) xs from by
        simp [dedupAux, hx]]
      constructor
      · intro h
        rcases List.mem_cons.mp h with h | h
        · exact ⟨h ▸ List.mem_cons_self x xs, h ▸ hx⟩
        · rcases (ih (x :: seen)).mp h with ⟨h1, h2⟩
          exact ⟨List.mem_cons_of_mem x h1,
            fun hs => h2 (List.mem_cons_of_mem x hs)⟩
      · rintro ⟨h1, h2⟩
        rcases List.mem_cons.mp h1 with h | h
        · exact h ▸ List.mem_cons_self x _
        · by_cases hax : a = x
          · exact hax ▸ List.mem_cons_self x _
          · exact List.mem_cons_of_mem x ((ih (x :: seen)).mpr
              ⟨h, fun hs => (List.mem_cons.mp hs).elim hax h2⟩)

theorem dedupAux_nodup (l : List String) :
    ∀ seen : List String, (dedupAux seen l).Nodup := by
  induction l with
  | nil => intro seen; simp [dedupAux]
  | cons x xs ih =>
    intro seen
    by_cases hx : x ∈ seen
    · simpa [dedupAux, hx] using ih seen
    · rw [show dedupAux seen (x :: xs) = x :: dedupAux (x :: seen) xs from by
        simp [dedupAux, hx]]
      refine List.nodup_cons.mpr ⟨fun hmem => ?_, ih (x :: seen)⟩
      exact ((mem_dedupAux x xs (x :: seen)).mp hmem).2 (List.mem_cons_self x seen)

theorem dedupAux_congr (l : List String) :
    ∀ s1 s2 : List String, (∀ a, a ∈ s1 ↔ a ∈ s2) →
      dedupAux s1 l = dedupAux s2 l := by
  induction l with
  | nil => intro s1 s2 _; rfl
  | cons x xs ih =>
    intro s1 s2 h
    by_cases hx : x ∈ s1
    · simp [dedupAux, hx, (h x).mp hx, ih s1 s2 h]
    · have hx2 : x ∉ s2 := fun hc => hx ((h x).mpr hc)
      simp only [dedupAux, hx, hx2, if_neg, ite_false]
      rw [ih (x :: s1) (x :: s2) (fun a => by simp [h a])]

theorem dedupAux_cons_seen (l : List String) :
    ∀ (seen : List String) (x : String),
      dedupAux (x :: seen) l = dedupAux seen (l.filter (fun a => a ≠ x)) := by
  induction l with
  | nil => intro seen x; rfl
  | cons a as ih =>
    intro seen x
    by_cases hax : a = x
    · subst hax
      have hfil : (a :: as).filter (fun b => b ≠ a) = as.filter (fun b => b ≠ a) := by
        simp [List.filter_cons]
      have hskip : dedupAux (a :: seen) (a :: as) = dedupAux (a :: seen) as := by
        simp [dedupAux, List.mem_cons_self a seen]
      rw [hfil, hskip]
      exact ih seen a
    · have hfil : (a :: as).filter (fun b => b ≠ x) =
          a :: as.filter (fun b => b ≠ x) := by
        simp [List.filter_cons, hax]
      rw [hfil]
      by_cases ha : a ∈ seen
      · have ha2 : a ∈ x :: seen := List.mem_cons_of_mem x ha
        simp only [dedupAux, ha, ha2, if_true]
        exact ih seen x
      · have ha2 : a ∉ x :: seen := fun hc =>
          (List.mem_cons.mp hc).elim hax ha
        simp only [dedupAux, ha, ha2, if_false, ite_false]
        congr 1
        rw [dedupAux_congr as (a :: x :: seen) (x :: a :: seen)
          (fun b => by constructor <;> (intro hb; simp at hb ⊢; tauto))]
        exact ih (a :: seen) x

/-- `dedupFirst` satisfies the keep-first recurrence: the head survives and
every later duplicate of it is dropped. -/
theorem dedupFirst_cons (x : String) (l : List String) :
    dedupFirst (x :: l) = x :: dedupFirst (l.filter (fun a => a ≠ x)) := by
  show dedupAux [] (x :: l) = x :: dedupAux [] (l.filter (fun a => a ≠ x))
  simp only [dedupAux, List.not_mem_nil, if_false, ite_false]
  rw [dedupAux_cons_seen l [] x]

theorem dedupFirst_sublist (l : List String) : List.Sublist (dedupFirst l) l :=
  dedupAux_sublist l []

theorem mem_dedupFirst (a : String) (l : List String) :
    a ∈ dedupFirst l ↔ a ∈ l := by
  rw [dedupFirst, mem_dedupAux]
  simp

theorem dedupFirst_nodup (l : List String) : (dedupFirst l).Nodup :=
  dedupAux_nodup l []

/-- The stopping character of `takeWhile`: when the taken prefix is proper,
the next character fails the predicate. -/
theorem takeWhile_stop (p : Char → Bool) (d : Char) (l : List Char)
    (h : (l.takeWhile p).length < l.length) :
    p (l.getD (l.takeWhile p).length d) = false := by
  induction l with
  | nil => simp at h
  | cons c cs ih =>
    by_cases hc : p c
    · have : (c :: cs).takeWhile p = c :: cs.takeWhile p := by
        simp [List.takeWhile_cons, hc]
      rw [this] at h ⊢
      simpa using ih (by simpa using h)
    · have : (c :: cs).takeWhile p = [] := by
        simp [List.takeWhile_cons, hc]
      rw [this]
      simpa using hc

theorem generateRouteName_inj (ing : Ingress) (h1 h2 : String)
    (hs : sanitizeHost h1 ≠ sanitizeHost h2) :
    generateRouteName ing h1 ≠ generateRouteName ing h2 := by
  intro heq
  by_cases e1 : h1 = ""
  · by_cases e2 : h2 = ""
    · exact hs (by rw [e1, e2])
    · rw [generateRouteName, generateRouteName, if_pos e1, if_neg e2] at heq
      have hlen := congrArg String.length heq
      rw [String.length_append, String.length_append,
        show ("-" : String).length = 1 from rfl] at hlen
      omega
  · by_cases e2 : h2 = ""
    · rw [generateRouteName, generateRouteName, if_neg e1, if_pos e2] at heq
      have hlen := congrArg String.length heq
      rw [String.length_append, String.length_append,
        show ("-" : String).length = 1 from rfl] at hlen
      omega
    · rw [generateRouteName, generateRouteName, if_neg e1, if_neg e2] at heq
      apply hs
      have hdata := congrArg String.data heq
      rw [String.data_append, String.data_append, String.data_append,
        String.data_append] at hdata
      rw [List.append_assoc, List.append_assoc] at hdata
      exact String.ext (List.append_cancel_left
        (List.append_cancel_left hdata))

/-- The names of the projected routes, by branch of `ConvertIngressFull`. -/
theorem convertIngressFull_route_names (cfg : Config) (resolver : Resolver)
    (ing : Ingress) :
    (convertIngressFull cfg resolver ing).httpRoutes.map (fun r => r.name) =
      if ing.defaultBackend.isSome ∧ (groupRulesByHost ing.rules).isEmpty then
        [ing.name]
      else
        (groupRulesByHost ing.rules).map (fun hp => generateRouteName ing hp.1) := by
  rw [convertIngressFull]
  by_cases hdef : ing.defaultBackend.isSome ∧
      ((groupRulesByHost ing.rules).map
        (fun hp =>
          createHTTPRouteWithFilters cfg resolver ing hp.1 hp.2
            (some ing.annotations))).isEmpty
  · have hdef2 : ing.defaultBackend.isSome ∧ (groupRulesByHost ing.rules).isEmpty := by
      simpa using hdef
    simp only [hdef, if_pos, hdef2, and_true, true_and]
    simp [createDefaultBackendRoute]
  · have hdef2 : ¬ (ing.defaultBackend.isSome ∧ (groupRulesByHost ing.rules).isEmpty) := by
      simpa using hdef
    simp only [hdef, hdef2, if_neg, ite_false]
    rw [List.map_map]
    rfl

theorem addAppRootRedirect_of_not (r : HTTPRouteRule) (annots : AnnotSet)
    (h : hasAppRoot annots = false) : addAppRootRedirect r annots = r := by
  rw [addAppRootRedirect]
  have : getString annots appRootKey = none := by
    rw [hasAppRoot, hasKey] at h
    rw [getString]
    exact Option.not_isSome_iff_eq_none.mp (by simp [h])
  rw [this]

/-- With `ssl-redirect` true, `applyFilters` appends the SSL filter, lets the
app-root step run (it may append a second redirect filter), skips the rewrite
step, and reports a redirect. -/
theorem applyFilters_ssl (rule0 : HTTPRouteRule) (annots : AnnotSet)
    (op : String) (h : hasSSLRedirect annots = true) :
    applyFilters rule0 annots op =
      (addAppRootRedirect { rule0 with filters := rule0.filters ++ [sslRedirectFilterV] }
        annots, true) := by
  rw [applyFilters]
  by_cases hA : hasAppRoot annots
  · simp only [h, hA, addSSLRedirectFilter, if_true, ite_true, Bool.not_true,
      Bool.false_eq_true, if_false, ite_false, Bool.true_or, Bool.or_eq_true,
      true_and, not_true, ite_not]
    simp
  · simp only [h, hA, addSSLRedirectFilter, addAppRootRedirect_of_not _ _ (by simpa using hA)]
    simp

theorem matchIsRoot_convert (path : HTTPIngressPath) (annots : Option AnnotSet) :
    matchIsRoot { path := some (convertPathMatch path annots) } =
      decide (path.path = "/") := by
  have hv : (convertPathMatch path annots).value = some path.path := by
    simp [convertPathMatch]
  simp [matchIsRoot, hv]

theorem addRewriteFilter_backendRefs (r : HTTPRouteRule) (annots : AnnotSet)
    (op : String) : (addRewriteFilter r annots op).backendRefs = r.backendRefs := by
  rw [addRewriteFilter]
  cases getString annots rewriteTargetKey <;> simp

theorem addRewriteFilter_matchList (r : HTTPRouteRule) (annots : AnnotSet)
    (op : String) : (addRewriteFilter r annots op).matchList = r.matchList := by
  rw [addRewriteFilter]
  cases getString annots rewriteTargetKey <;> simp

/-- Without an SSL redirect and without an app-root hit, `applyFilters` can
only add the rewrite filter and reports no redirect. -/
theorem applyFilters_no_redirect (rule0 : HTTPRouteRule) (annots : AnnotSet)
    (op : String) (hssl : hasSSLRedirect annots = false)
    (hroot : rule0.matchList.any matchIsRoot = false ∨ hasAppRoot annots = false) :
    applyFilters rule0 annots op =
      (if hasRewrite annots then addRewriteFilter rule0 annots op else rule0,
        false) := by
  rw [applyFilters]
  by_cases hA : hasAppRoot annots
  · have hany : rule0.matchList.any matchIsRoot = false := by
      rcases hroot with h | h
      · exact h
      · rw [hA] at h; simp at h
    have happ : addAppRootRedirect rule0 annots = rule0 := by
      rw [addAppRootRedirect]
      rcases hv : getString annots appRootKey with _ | v
      · rfl
      · by_cases he : rule0.matchList.isEmpty
        · simp [he]
        · simp [he, hany]
    simp only [hssl, hA, happ, if_true, ite_true, Bool.false_eq_true, if_false,
      ite_false, Bool.false_or, Bool.or_false]
    simp
  · simp only [hssl, hA, Bool.false_eq_true, if_false, ite_false]
    simp

/-- With `ssl-redirect` true, the projected rule: SSL filter first, app-root
filter exactly when app-root is set and the path is literally "/", no
rewrite filter, no backend refs. -/
theorem convertPathWithFilters_ssl (resolver : Resolver) (ns : String)
    (path : HTTPIngressPath) (annots : AnnotSet)
    (h : hasSSLRedirect annots = true) :
    convertPathWithFilters resolver ns path (some annots) =
      (if hasAppRoot annots = true ∧ path.path = "/" then
        { matchList := [{ path := some (convertPathMatch path annots) }]
          filters := [sslRedirectFilterV,
            appRootFilterV ((getString annots appRootKey).getD "")] }
      else if path.path ≠ "" then
        { matchList := [{ path := some (convertPathMatch path annots) }]
          filters := [sslRedirectFilterV] }
      else { filters := [sslRedirectFilterV] }) := by
  have hfil : hasHTTPRouteFilters annots = true := by
    simp [hasHTTPRouteFilters, h]
  rw [convertPathWithFilters]
  simp only [hfil, ite_true, if_true]
  by_cases hp : path.path = ""
  · have hne : ¬ path.path ≠ "" := by simp [hp]
    rw [if_neg hne]
    rw [applyFilters_ssl _ _ _ h]
    have hr : addAppRootRedirect
        { filters := ([] : List HTTPRouteFilter) ++ [sslRedirectFilterV] } annots =
        { filters := [sslRedirectFilterV] } := by
      rw [addAppRootRedirect]
      cases getString annots appRootKey <;> simp
    simp only [hr]
    have hcond : ¬ (hasAppRoot annots = true ∧ path.path = "/") := by
      rintro ⟨_, hc⟩; rw [hp] at hc; exact absurd hc (by decide)
    simp [hcond, hp]
  · rw [if_pos hp]
    rw [applyFilters_ssl _ _ _ h]
    by_cases hA : hasAppRoot annots
    · rcases Option.isSome_iff_exists.mp (by simpa [hasAppRoot, hasKey, getString] using hA)
        with ⟨v, hv⟩
      have hv2 : getString annots appRootKey = some v := hv
      by_cases hroot : path.path = "/"
      · have happ : addAppRootRedirect
            { matchList := [{ path := some (convertPathMatch path (some annots)) }]
              filters := ([] : List HTTPRouteFilter) ++ [sslRedirectFilterV] } annots =
            { matchList := [{ path := some (convertPathMatch path (some annots)) }]
              filters := [sslRedirectFilterV, appRootFilterV v] } := by
          rw [addAppRootRedirect, hv2]
          simp [List.any_cons, matchIsRoot_convert, hroot]
        simp only [happ]
        simp [hA, hroot, hv2]
      · have happ : addAppRootRedirect
            { matchList := [{ path := some (convertPathMatch path (some annots)) }]
              filters := ([] : List HTTPRouteFilter) ++ [sslRedirectFilterV] } annots =
            { matchList := [{ path := some (convertPathMatch path (some annots)) }]
              filters := [sslRedirectFilterV] } := by
          rw [addAppRootRedirect, hv2]
          simp [List.any_cons, matchIsRoot_convert, hroot]
        simp only [happ]
        simp [hroot, hp]
    · have happ : addAppRootRedirect
          { matchList := [{ path := some (convertPathMatch path (some annots)) }]
            filters := ([] : List HTTPRouteFilter) ++ [sslRedirectFilterV] } annots =
          { matchList := [{ path := some (convertPathMatch path (some annots)) }]
            filters := [sslRedirectFilterV] } :=
        addAppRootRedirect_of_not _ _ (by simpa using hA)
      simp only [happ]
      have hcond : ¬ (hasAppRoot annots = true ∧ path.path = "/") := by
        rintro ⟨hc, _⟩; rw [hc] at hA; exact hA rfl
      simp [hcond, hp]

/-- Without an SSL redirect and without an app-root hit on "/", the rule
keeps exactly one backend ref, converted from the path's backend. -/
theorem convertPathWithFilters_backendRefs (resolver : Resolver) (ns : String)
    (path : HTTPIngressPath) (annots : AnnotSet)
    (hssl : hasSSLRedirect annots = false)
    (har : ¬ (hasAppRoot annots = true ∧ path.path = "/")) :
    (convertPathWithFilters resolver ns path (some annots)).backendRefs =
      [convertIngressBackend resolver ns path.backend] := by
  rw [convertPathWithFilters]
  by_cases hfil : hasHTTPRouteFilters annots
  · simp only [hfil, ite_true, if_true]
    by_cases hp : path.path = ""
    · have hne : ¬ path.path ≠ "" := by simp [hp]
      rw [if_neg hne]
      rw [applyFilters_no_redirect _ _ _ hssl (Or.inl (by simp))]
      by_cases hrw : hasRewrite annots
      · simp [hrw, addRewriteFilter_backendRefs]
      · simp [hrw]
    · rw [if_pos hp]
      have hany : (HTTPRouteRule.matchList
          { matchList := [{ path := some (convertPathMatch path (some annots)) }] }).any
            matchIsRoot = false ∨ hasAppRoot annots = false := by
        by_cases hA : hasAppRoot annots
        · left
          have hroot : path.path ≠ "/" := fun hc => har ⟨hA, hc⟩
          simp [List.any_cons, matchIsRoot_convert, hroot]
        · right; simpa using hA
      rw [applyFilters_no_redirect _ _ _ hssl hany]
      by_cases hrw : hasRewrite annots
      · simp [hrw, addRewriteFilter_backendRefs]
      · simp [hrw]
  · simp only [hfil, ite_false, if_false]
    by_cases hp : path.path ≠ "" <;> simp [hp]

/-! ### The claims -/

/-- C1: the claim states that a Converging reconcile in which the API server
accepts all writes garbage-collects, for each policy kind, every live
resource whose provenance annotation matches the Ingress but whose name is
absent from the current projection — in particular that removing a
previously-true `enable-cors` deletes the derived SecurityPolicy on the next
reconcile.  The staged `Reconcile` performs no such collection: reconciling
`test-ingress` with `enable-cors=true` creates
`test-ingress-example-com-security`; reconciling again after the annotation
is removed leaves that provenance-matching policy live even though the new
projection contains no security policy.  (The repository's own test
`TestIngressReconciler_Reconcile_CleansUpStaleSecurityPolicy` asserts the
deletion the claim describes.) -/
theorem c1_converging_reconcile_leaves_stale_security_policy :
    ((reconcile exCfg noopResolvePort exIngressNoCors
        (reconcile exCfg noopResolvePort exIngressCors {}).1).1.sps.map
      (fun p => p.name)) = ["test-ingress-example-com-security"] ∧
    ((reconcile exCfg noopResolvePort exIngressNoCors
        (reconcile exCfg noopResolvePort exIngressCors {}).1).1.sps.map
      (fun p => lookupAnnot p.annotations sourceAnnotKey)) =
      [some (sourceRef exIngressNoCors)] ∧
    (convertIngressFull exCfg noopResolvePort exIngressNoCors).securityPolicies = [] := by
  refine ⟨?_, ?_, ?_⟩ <;> rfl

/-- C2 (counterexample): a deleting reconcile on an Ingress whose finalizer
is present removes the finalizer while a foreign-namespace ReferenceGrant
and a BackendTLSPolicy whose provenance annotations match the Ingress are
still live — against the claim that they are deleted before the finalizer is
removed. -/
theorem c2_finalizer_removed_with_live_reference_grant :
    ((reconcile exCfg noopResolvePort exIngressDeleting exClusterDeleting).2.1.finalizers
      = []) ∧
    (reconcile exCfg noopResolvePort exIngressDeleting exClusterDeleting).1.refGrants
      = [exRefGrant] ∧
    (reconcile exCfg noopResolvePort exIngressDeleting exClusterDeleting).1.btls
      = [exBTLS] ∧
    lookupAnnot exRefGrant.annotations sourceAnnotKey = some (sourceRef exIngressDeleting) ∧
    lookupAnnot exBTLS.annotations sourceAnnotKey = some (sourceRef exIngressDeleting) ∧
    exRefGrant.ns ≠ exIngressDeleting.ns ∧
    exIngressDeleting.deletionTimestampSet = true ∧
    exIngressDeleting.finalizers = [finalizerName] := by
  refine ⟨?_, ?_, ?_, ?_, ?_, ?_, ?_, ?_⟩ <;> first | rfl | decide

/-- C2 (amended): when Reconcile runs for an Ingress whose deletion timestamp
is set and whose finalizer is present, it deletes every HTTPRoute,
BackendTrafficPolicy, ClientTrafficPolicy and SecurityPolicy in the
Ingress's namespace whose provenance annotation matches, then removes the
finalizer; BackendTLSPolicies and ReferenceGrants are not deleted by this
path. -/
theorem c2_deletion_path_deletes_routes_and_three_policy_kinds (cfg : Config)
    (resolver : Resolver) (ing : Ingress) (c : Cluster)
    (hdel : ing.deletionTimestampSet = true)
    (hcls : shouldProcess cfg ing = true)
    (hfin : ing.finalizers.contains finalizerName = true) :
    ((reconcile cfg resolver ing c).2.1.finalizers =
      ing.finalizers.filter (fun f => f ≠ finalizerName)) ∧
    ((reconcile cfg resolver ing c).1.routes = c.routes.filter (fun r =>
      ¬ (r.ns = ing.ns ∧ (lookupAnnot r.annotations sourceAnnotKey).getD "" = sourceRef ing))) ∧
    ((reconcile cfg resolver ing c).1.btps = c.btps.filter (fun p =>
      ¬ (p.ns = ing.ns ∧ (lookupAnnot p.annotations sourceAnnotKey).getD "" = sourceRef ing))) ∧
    ((reconcile cfg resolver ing c).1.ctps = c.ctps.filter (fun p =>
      ¬ (p.ns = ing.ns ∧ (lookupAnnot p.annotations sourceAnnotKey).getD "" = sourceRef ing))) ∧
    ((reconcile cfg resolver ing c).1.sps = c.sps.filter (fun p =>
      ¬ (p.ns = ing.ns ∧ (lookupAnnot p.annotations sourceAnnotKey).getD "" = sourceRef ing))) ∧
    ((reconcile cfg resolver ing c).1.btls = c.btls) ∧
    ((reconcile cfg resolver ing c).1.refGrants = c.refGrants) := by
  have hrec : reconcile cfg resolver ing c =
      (deleteOwnedPolicies ing (deleteOwnedHTTPRoutes ing c),
       { ing with finalizers := ing.finalizers.filter (fun f => f ≠ finalizerName) },
       ({} : ReconcileResult)) := by
    rw [reconcile]
    simp only [hcls, hdel, if_true, ite_true, not_true, Bool.true_eq_false,
      if_false, ite_false]
    rw [handleDeletion]
    have hm : finalizerName ∈ ing.finalizers := by simpa using hfin
    simp [hfin, hm, hdel]
  rw [hrec]
  refine ⟨rfl, ?_, ?_, ?_, ?_, rfl, rfl⟩ <;>
    simp [deleteOwnedPolicies, deleteOwnedHTTPRoutes]

/-- C2 (witness): the amended deletion behaviour at the concrete deleting
Ingress and a concrete store. -/
theorem c2_deletion_path_witness :
    exIngressDeleting.deletionTimestampSet = true ∧
    shouldProcess exCfg exIngressDeleting = true ∧
    exIngressDeleting.finalizers.contains finalizerName = true ∧
    ((reconcile exCfg noopResolvePort exIngressDeleting exClusterDeleting).1.btls =
      exClusterDeleting.btls) ∧
    ((reconcile exCfg noopResolvePort exIngressDeleting exClusterDeleting).1.refGrants =
      exClusterDeleting.refGrants) := by
  refine ⟨by rfl, by rfl, by rfl, ?_, ?_⟩
  · exact (c2_deletion_path_deletes_routes_and_three_policy_kinds exCfg noopResolvePort
      exIngressDeleting exClusterDeleting (by rfl) (by rfl) (by rfl)).2.2.2.2.2.1
  · exact (c2_deletion_path_deletes_routes_and_three_policy_kinds exCfg noopResolvePort
      exIngressDeleting exClusterDeleting (by rfl) (by rfl) (by rfl)).2.2.2.2.2.2

/-- C3 (counterexample): with `ssl-redirect=true`, `app-root=/app` and path
"/", the projected rule carries two filters — the 301 https redirect and the
302 app-root redirect — not "exactly one filter in total" as the claim
states for every path and app-root value.  Backend refs are still empty. -/
theorem c3_ssl_redirect_app_root_two_filters :
    (convertPathWithFilters noopResolvePort "default" exPathRoot
      (some exAnnotsSslAppRoot)).filters =
      [sslRedirectFilterV, appRootFilterV "/app"] ∧
    (convertPathWithFilters noopResolvePort "default" exPathRoot
      (some exAnnotsSslAppRoot)).backendRefs = [] ∧
    hasSSLRedirect exAnnotsSslAppRoot = true := by
  refine ⟨?_, ?_, ?_⟩ <;> rfl

/-- C3 (amended): for every projected rule whose annotations make
`ssl-redirect` parse to true, the rule carries the https/301
request-redirect filter first, no URL-rewrite filter (regardless of
`rewrite-target`), and zero backend refs; it carries exactly one filter
unless `app-root` is set and the rule's path is literally "/", in which case
the 302 app-root redirect filter is appended as a second filter. -/
theorem c3_ssl_redirect_rule_amended (resolver : Resolver) (ns : String)
    (path : HTTPIngressPath) (annots : AnnotSet)
    (h : hasSSLRedirect annots = true) :
    ((convertPathWithFilters resolver ns path (some annots)).backendRefs = []) ∧
    (∀ f ∈ (convertPathWithFilters resolver ns path (some annots)).filters,
      isURLRewriteFilter f = false) ∧
    ((convertPathWithFilters resolver ns path (some annots)).filters =
      (if hasAppRoot annots = true ∧ path.path = "/" then
        [sslRedirectFilterV, appRootFilterV ((getString annots appRootKey).getD "")]
      else [sslRedirectFilterV])) := by
  rw [convertPathWithFilters_ssl resolver ns path annots h]
  by_cases hc : hasAppRoot annots = true ∧ path.path = "/"
  · simp [hc, isURLRewriteFilter, sslRedirectFilterV, appRootFilterV]
  · by_cases hp : path.path ≠ "" <;>
      simp [hc, hp, isURLRewriteFilter, sslRedirectFilterV]

/-- C3 (witness): the amended rule shape at `ssl-redirect=true`,
`app-root=/app`, path "/". -/
theorem c3_ssl_redirect_rule_amended_witness :
    hasSSLRedirect exAnnotsSslAppRoot = true ∧
    ((convertPathWithFilters noopResolvePort "default" exPathRoot
        (some exAnnotsSslAppRoot)).backendRefs = []) ∧
    ((convertPathWithFilters noopResolvePort "default" exPathRoot
        (some exAnnotsSslAppRoot)).filters =
      (if hasAppRoot exAnnotsSslAppRoot = true ∧ exPathRoot.path = "/" then
        [sslRedirectFilterV,
          appRootFilterV ((getString exAnnotsSslAppRoot appRootKey).getD "")]
      else [sslRedirectFilterV])) := by
  have h := c3_ssl_redirect_rule_amended noopResolvePort "default" exPathRoot
    exAnnotsSslAppRoot (by rfl)
  exact ⟨by rfl, h.1, h.2.2⟩

/-- C4 (spec-modelled: the downgrade step and `extractStaticPrefix` are
missing from the staged sources, which carry only their tests): for every
path whose match value contains a regex capture-group pattern and for which
a URL-rewrite filter was emitted, the projected path match is downgraded to
PathPrefix whose value is the longest literal prefix of the original regex —
the characters taken are exactly the maximal metacharacter-free prefix, and
the rewrite filter stays attached. -/
theorem c4_regex_downgrade_path_match (resolver : Resolver) (ns : String)
    (path : HTTPIngressPath) (annots : Option AnnotSet)
    (hcap : containsCaptureGroupPattern path.path = true)
    (hrw : (convertPathWithFilters resolver ns path annots).filters.any
      isURLRewriteFilter = true) :
    ((convertPathWithFiltersFull resolver ns path annots).matchList =
      [{ path := some
          { type := some PathMatchType.pathPfx
            value := some (extractStaticPrefix path.path) } }]) ∧
    ((convertPathWithFiltersFull resolver ns path annots).filters.any
      isURLRewriteFilter = true) ∧
    (∀ ch ∈ path.path.data.takeWhile (fun c => ! isRegexMeta c),
      isRegexMeta ch = false) ∧
    List.IsPrefix (path.path.data.takeWhile (fun c => ! isRegexMeta c))
      path.path.data ∧
    ((path.path.data.takeWhile (fun c => ! isRegexMeta c)).length <
        path.path.data.length →
      isRegexMeta (path.path.data.getD
        (path.path.data.takeWhile (fun c => ! isRegexMeta c)).length ' ') = true) ∧
    (extractStaticPrefix path.path =
      (if (path.path.data.takeWhile (fun c => ! isRegexMeta c)).isEmpty then "/"
       else String.mk (path.path.data.takeWhile (fun c => ! isRegexMeta c)))) := by
  have hfull : convertPathWithFiltersFull resolver ns path annots =
      { convertPathWithFilters resolver ns path annots with
        matchList :=
          [{ path := some
              { type := some PathMatchType.pathPfx
                value := some (extractStaticPrefix path.path) } }] } := by
    rw [convertPathWithFiltersFull]
    simp [hrw, hcap]
  refine ⟨by rw [hfull], by rw [hfull]; exact hrw, ?_, ?_, ?_, ?_⟩
  · intro ch hch
    have := List.mem_takeWhile_imp hch
    simpa using this
  · exact List.takeWhile_prefix _
  · intro hlt
    have := takeWhile_stop (fun c => ! isRegexMeta c) ' ' path.path.data hlt
    simpa using this
  · rw [extractStaticPrefix]
    by_cases he : (path.path.data.takeWhile (fun c => ! isRegexMeta c)).isEmpty
    · have he2 : path.path.data.takeWhile (fun c => ! isRegexMeta c) = [] := by
        simpa using he
      simp [he, he2]
    · have he2 : path.path.data.takeWhile (fun c => ! isRegexMeta c) ≠ [] := by
        simpa using he
      have hne : String.mk (path.path.data.takeWhile (fun c => ! isRegexMeta c)) ≠ "" := by
        intro hc
        exact he2 (by simpa using congrArg String.data hc)
      simp [he, hne]

/-- C4 (witness): `use-regex=true`, `rewrite-target=/$2`,
path `/data(/|$)(.*)` — the emitted match is `{PathPrefix, "/data"}` with a
URL-rewrite filter attached. -/
theorem c4_regex_downgrade_path_match_witness :
    containsCaptureGroupPattern exPathRegex.path = true ∧
    ((convertPathWithFilters noopResolvePort "default" exPathRegex
        (some exAnnotsRegex)).filters.any isURLRewriteFilter = true) ∧
    extractStaticPrefix exPathRegex.path = "/data" ∧
    ((convertPathWithFiltersFull noopResolvePort "default" exPathRegex
        (some exAnnotsRegex)).matchList =
      [{ path := some { type := some PathMatchType.pathPfx, value := some "/data" } }]) ∧
    ((convertPathWithFiltersFull noopResolvePort "default" exPathRegex
        (some exAnnotsRegex)).filters.any isURLRewriteFilter = true) := by
  have h := c4_regex_downgrade_path_match noopResolvePort "default" exPathRegex
    (some exAnnotsRegex) (by rfl) (by rfl)
  refine ⟨by rfl, by rfl, by rfl, ?_, h.2.1⟩
  have h1 := h.1
  rw [show extractStaticPrefix exPathRegex.path = "/data" from by rfl] at h1
  exact h1

/-- C5 (counterexample): the distinct hosts "a.b" and "a-b" sanitize to the
same string, so the projection of an Ingress named "n" carrying both hosts
emits two Routes both named "n-a-b" — the claim's pairwise distinctness over
all pairs of distinct hosts fails. -/
theorem c5_route_name_collision :
    ((convertIngressFull exCfg noopResolvePort exIngressCollide).httpRoutes.map
      (fun r => r.name)) = ["n-a-b", "n-a-b"] ∧
    ¬ ((convertIngressFull exCfg noopResolvePort exIngressCollide).httpRoutes.map
      (fun r => r.name)).Nodup ∧
    ("a.b" : String) ≠ "a-b" := by
  refine ⟨by rfl, ?_, by decide⟩
  rw [show ((convertIngressFull exCfg noopResolvePort exIngressCollide).httpRoutes.map
      (fun r => r.name)) = ["n-a-b", "n-a-b"] from by rfl]
  decide

/-- C5 (amended): within `project(I)` the Route names are pairwise distinct
whenever the sanitized forms ("." to "-", "*" to "wildcard") of the grouped
rule hosts are pairwise distinct; two distinct hosts whose sanitizations
coincide collide. -/
theorem c5_route_names_nodup_of_sanitized_distinct (cfg : Config)
    (resolver : Resolver) (ing : Ingress)
    (h : ((groupRulesByHost ing.rules).map Prod.fst).Pairwise
      (fun h1 h2 => sanitizeHost h1 ≠ sanitizeHost h2)) :
    ((convertIngressFull cfg resolver ing).httpRoutes.map (fun r => r.name)).Nodup := by
  rw [convertIngressFull_route_names]
  by_cases hd : ing.defaultBackend.isSome ∧ (groupRulesByHost ing.rules).isEmpty
  · simp [hd]
  · simp only [hd, ite_false, if_neg]
    rw [List.pairwise_map] at h
    have h3 : (groupRulesByHost ing.rules).Pairwise
        (fun a b => generateRouteName ing a.1 ≠ generateRouteName ing b.1) :=
      h.imp (fun hab => generateRouteName_inj ing _ _ hab)
    rw [List.Nodup, List.pairwise_map]
    exact h3

/-- C5 (witness): name uniqueness at a concrete two-host Ingress whose
sanitized hosts differ. -/
theorem c5_route_names_nodup_witness :
    (((groupRulesByHost exIngressCors.rules).map Prod.fst).Pairwise
      (fun h1 h2 => sanitizeHost h1 ≠ sanitizeHost h2)) ∧
    ((convertIngressFull exCfg noopResolvePort exIngressCors).httpRoutes.map
      (fun r => r.name)).Nodup := by
  have hp : ((groupRulesByHost exIngressCors.rules).map Prod.fst).Pairwise
      (fun h1 h2 => sanitizeHost h1 ≠ sanitizeHost h2) := by
    rw [show (groupRulesByHost exIngressCors.rules).map Prod.fst = ["example.com"]
      from by rfl]
    exact List.pairwise_singleton _ _
  exact ⟨hp, c5_route_names_nodup_of_sanitized_distinct exCfg noopResolvePort
    exIngressCors hp⟩

/-- C6 (spec-modelled: `generateBackendTLSPolicies` and
`HasBackendTLSPolicy` are missing from the staged sources, which carry only
their tests): the projection contains BackendTLSPolicies iff the
`backend-protocol` annotation equals "HTTPS" exactly (so "https" and "HTTP"
produce none), and then exactly one policy per unique backend service name
referenced by the Routes, in order of first appearance — their target names
are the keep-first deduplication of the referenced service names: without
duplicates, covering exactly the referenced names, in a subsequence of the
reference order, with system-trust validation and the Ingress's provenance.
(`dedupFirst_cons` pins the keep-first order.) -/
theorem c6_backend_tls_policies_gating_and_dedup (ing : Ingress)
    (routes : List HTTPRoute) (annots : AnnotSet) :
    (lookupAnnot annots backendProtocolKey ≠ some "HTTPS" →
      generateBackendTLSPolicies ing routes annots = []) ∧
    (lookupAnnot annots backendProtocolKey = some "HTTPS" →
      ((generateBackendTLSPolicies ing routes annots).map (fun p => p.targetName) =
        dedupFirst (routeServiceNames routes)) ∧
      ((generateBackendTLSPolicies ing routes annots).map (fun p => p.targetName)).Nodup ∧
      (∀ s, s ∈ (generateBackendTLSPolicies ing routes annots).map (fun p => p.targetName)
        ↔ s ∈ routeServiceNames routes) ∧
      List.Sublist
        ((generateBackendTLSPolicies ing routes annots).map (fun p => p.targetName))
        (routeServiceNames routes) ∧
      (∀ p ∈ generateBackendTLSPolicies ing routes annots,
        p.wellKnownCACertificates = "System" ∧
        lookupAnnot p.annotations sourceAnnotKey = some (sourceRef ing))) := by
  constructor
  · intro hne
    rw [generateBackendTLSPolicies]
    have : hasBackendTLSPolicy annots = false := by
      simp [hasBackendTLSPolicy, hne]
    simp [this]
  · intro heq
    have hbt : hasBackendTLSPolicy annots = true := by
      simp [hasBackendTLSPolicy, heq]
    have hgen : generateBackendTLSPolicies ing routes annots =
        (dedupFirst (routeServiceNames routes)).map (fun svc =>
          { ns := ing.ns
            labels := copyLabels ing.labels
            annotations := [(sourceAnnotKey, sourceRef ing)]
            targetName := svc
            wellKnownCACertificates := "System" }) := by
      rw [generateBackendTLSPolicies]
      simp [hbt]
    have hmapn : (generateBackendTLSPolicies ing routes annots).map
        (fun p => p.targetName) = dedupFirst (routeServiceNames routes) := by
      rw [hgen, List.map_map]
      exact List.map_id'' (fun x => rfl) _
    refine ⟨hmapn, ?_, ?_, ?_, ?_⟩
    · rw [hmapn]; exact dedupFirst_nodup _
    · intro s; rw [hmapn]; exact mem_dedupFirst s _
    · rw [hmapn]; exact dedupFirst_sublist _
    · intro p hp
      rw [hgen] at hp
      rcases List.mem_map.mp hp with ⟨svc, _, hps⟩
      rw [← hps]
      exact ⟨rfl, rfl⟩

/-- C6 (witness): routes referencing services s1, s1, s2 under
`backend-protocol=HTTPS` give target names ["s1", "s2"]; "https" and "HTTP"
give no policy. -/
theorem c6_backend_tls_policies_witness :
    (((generateBackendTLSPolicies exIngressCors exRoutesTLS
        [(backendProtocolKey, "HTTPS")]).map (fun p => p.targetName)) =
      dedupFirst (routeServiceNames exRoutesTLS)) ∧
    (((generateBackendTLSPolicies exIngressCors exRoutesTLS
        [(backendProtocolKey, "HTTPS")]).map (fun p => p.targetName)) = ["s1", "s2"]) ∧
    generateBackendTLSPolicies exIngressCors exRoutesTLS
      [(backendProtocolKey, "https")] = [] ∧
    generateBackendTLSPolicies exIngressCors exRoutesTLS
      [(backendProtocolKey, "HTTP")] = [] := by
  refine ⟨?_, by rfl, ?_, ?_⟩
  · exact ((c6_backend_tls_policies_gating_and_dedup exIngressCors exRoutesTLS
      [(backendProtocolKey, "HTTPS")]).2 (by rfl)).1
  · exact (c6_backend_tls_policies_gating_and_dedup exIngressCors exRoutesTLS
      [(backendProtocolKey, "https")]).1 (by decide)
  · exact (c6_backend_tls_policies_gating_and_dedup exIngressCors exRoutesTLS
      [(backendProtocolKey, "HTTP")]).1 (by decide)

/-- C7: a service backend whose port the resolver fails to resolve still
yields its rule's backend ref, with group "", kind "Service" and the service
name set but the port omitted; the projection is a total function, so it
returns normally with no error channel. -/
theorem c7_unresolved_port_backend_ref (resolver : Resolver) (ns : String)
    (path : HTTPIngressPath) (svc : IngressServiceBackend) (annots : AnnotSet)
    (hb : path.backend = { service := some svc, resource := none })
    (hres : resolver ns svc.name svc.port.name svc.port.number = none)
    (hssl : hasSSLRedirect annots = false)
    (har : ¬ (hasAppRoot annots = true ∧ path.path = "/")) :
    (convertPathWithFilters resolver ns path (some annots)).backendRefs =
      [{ group := some ""
         kind := some "Service"
         name := svc.name
         port := none }] := by
  rw [convertPathWithFilters_backendRefs resolver ns path annots hssl har]
  rw [hb]
  simp [convertIngressBackend, resolveServicePort, hres]

/-- C7 (witness): the no-op resolver on a named port emits the portless
backend ref, inside the full projection as well. -/
theorem c7_unresolved_port_backend_ref_witness :
    noopResolvePort "default" "svc" "http" 0 = none ∧
    ((convertPathWithFilters noopResolvePort "default" exPathNamedPort
        (some [])).backendRefs =
      [{ group := some ""
         kind := some "Service"
         name := "svc"
         port := none }]) := by
  refine ⟨by rfl, ?_⟩
  exact c7_unresolved_port_backend_ref noopResolvePort "default" exPathNamedPort
    exSvcNamed [] (by rfl) (by rfl) (by rfl) (by simp [hasAppRoot, hasKey, lookupAnnot])

/-- C8: during create-or-update of a derived resource, a not-found read
leads to a create (the result is the create outcome's classification,
independent of the update outcome); Invalid or BadRequest errors from the
create or the update are classified permanent, making the reconcile return
requeue-after-five-minutes with a nil error; every other API error — from
the read, the create or the update — is returned to the runtime as a
transient error. -/
theorem c8_create_or_update_error_classification
    (createRes updateRes : Except ApiError Unit) (e : ApiError) :
    (reconcileHTTPRouteOutcome (Except.error ApiError.notFound) createRes updateRes =
      (match createRes with
       | .ok _ => none
       | .error ce => some (classifyWriteError ce))) ∧
    ((isInvalidErr e = true ∨ isBadRequestErr e = true) →
      (reconcileStepResult (Except.error ApiError.notFound) (Except.error e) updateRes =
        ({ requeueAfterNs := permanentRequeueDelayNs }, none)) ∧
      (reconcileStepResult (Except.ok ()) createRes (Except.error e) =
        ({ requeueAfterNs := permanentRequeueDelayNs }, none))) ∧
    ((isInvalidErr e = false ∧ isBadRequestErr e = false) →
      (reconcileStepResult (Except.error ApiError.notFound) (Except.error e) updateRes =
        ({}, some e)) ∧
      (reconcileStepResult (Except.ok ()) createRes (Except.error e) =
        ({}, some e))) ∧
    (isNotFoundErr e = false →
      reconcileHTTPRouteOutcome (Except.error e) createRes updateRes =
        some (ReconcileErr.transient e)) := by
  refine ⟨?_, ?_, ?_, ?_⟩
  · cases createRes <;> simp [reconcileHTTPRouteOutcome, isNotFoundErr]
  · intro hin
    have hcl : classifyWriteError e = ReconcileErr.permanent e := by
      rcases hin with h | h <;> simp [classifyWriteError, h]
    constructor <;>
      simp [reconcileStepResult, reconcileHTTPRouteOutcome, isNotFoundErr, hcl,
        handleReconcileError]
  · rintro ⟨h1, h2⟩
    have hcl : classifyWriteError e = ReconcileErr.transient e := by
      simp [classifyWriteError, h1, h2]
    constructor <;>
      simp [reconcileStepResult, reconcileHTTPRouteOutcome, isNotFoundErr, hcl,
        handleReconcileError]
  · intro hnf
    simp [reconcileHTTPRouteOutcome, hnf]

/-- C8 (witness): an Invalid create error yields the five-minute requeue
with a nil error; a server error is passed through transiently. -/
theorem c8_error_classification_witness :
    (reconcileStepResult (Except.error ApiError.notFound)
      (Except.error ApiError.invalid) (Except.ok ()) =
        ({ requeueAfterNs := permanentRequeueDelayNs }, none)) ∧
    (reconcileStepResult (Except.error ApiError.notFound)
      (Except.error (ApiError.other 500)) (Except.ok ()) =
        ({}, some (ApiError.other 500))) ∧
    (reconcileHTTPRouteOutcome (Except.error ApiError.conflict)
      (Except.ok ()) (Except.ok ()) = some (ReconcileErr.transient ApiError.conflict)) := by
  refine ⟨?_, ?_, ?_⟩
  · exact ((c8_create_or_update_error_classification (Except.error ApiError.invalid)
      (Except.ok ()) ApiError.invalid).2.1 (Or.inl rfl)).1
  · exact ((c8_create_or_update_error_classification
      (Except.error (ApiError.other 500)) (Except.ok ())
      (ApiError.other 500)).2.2.1 ⟨rfl, rfl⟩).1
  · exact (c8_create_or_update_error_classification (Except.ok ()) (Except.ok ())
      ApiError.conflict).2.2.2 rfl

/-- C9: the claim states that `GetDuration` re-emits every successfully
parsed value in the canonical form `^([0-9]{1,5}(h|m|s|ms)){1,4}$` — which
is also what `formatDuration`'s own comment documents.  The code violates
it: the integer value "360000000" (seconds) parses successfully and is
re-emitted as "100000h", whose hour component has six digits — a code bug at
large values (the claim's other conjuncts hold at this input: a plain
integer is read as seconds). -/
theorem c9_get_duration_breaks_canonical_pattern :
    getDuration [(proxyReadTimeoutKey, "360000000")] proxyReadTimeoutKey =
      some "100000h" ∧
    matchesCanonicalDuration "100000h" = false ∧
    goAtoi "360000000" = some 360000000 ∧
    matchesCanonicalDuration "0s" = true := by
  refine ⟨?_, ?_, ?_, ?_⟩ <;> rfl

/-- C10: when both `proxy-read-timeout` and `proxy-send-timeout` parse, the
request timeout written by `buildTimeout` is the send value exactly when its
canonical string is Go-string-greater (lexicographic over bytes) than the
read value's canonical string — the comparison is over strings, not numeric
durations. -/
theorem c10_request_timeout_lexicographic_choice (annots : AnnotSet)
    (r s : String)
    (hr : getDuration annots proxyReadTimeoutKey = some r)
    (hs : getDuration annots proxySendTimeoutKey = some s) :
    (buildTimeout annots).requestTimeout = some (if goStrGt s r then s else r) := by
  rw [buildTimeout]
  simp only [hr, hs]
  by_cases hgt : goStrGt s r <;> simp [hgt]

/-- C10 (witness): read=600 renders as "10m", send=90 renders as "1m30s",
and "1m30s" is string-greater than "10m", so the 90-second value wins over
the 600-second one. -/
theorem c10_request_timeout_witness :
    getDuration exAnnotsTimeout proxyReadTimeoutKey = some "10m" ∧
    getDuration exAnnotsTimeout proxySendTimeoutKey = some "1m30s" ∧
    goStrGt "1m30s" "10m" = true ∧
    (buildTimeout exAnnotsTimeout).requestTimeout = some "1m30s" := by
  refine ⟨by rfl, by rfl, by rfl, ?_⟩
  have h := c10_request_timeout_lexicographic_choice exAnnotsTimeout "10m" "1m30s"
    (by rfl) (by rfl)
  rw [h]
  rw [show goStrGt "1m30s" "10m" = true from by rfl]
  simp
